import Mathlib

/-!
Verification of the block/blob availability and reconstruction pipeline:
a shallow embedding of
  `beacon_node/beacon_chain/src/beacon_block_streamer.rs`,
  `beacon_node/network/src/sync/block_lookups/single_block_lookup.rs`, and
  `beacon_node/beacon_chain/src/blob_verification.rs`
together with theorems about the embedded operations.

Modelling conventions:
* `Hash256`, `ExecutionBlockHash`, `Slot`, `PeerId` and similar opaque
  identifier types are modelled as `Nat`.
* Rust `u64` quantities (slots, block numbers) are modelled as `Nat`
  without wrap-around: execution block numbers and slots grow by one per
  block from zero, so `u64` overflow is unreachable for them.
* Rust `u8` failure counters are modelled exactly: the increments use
  saturating addition at 255 and the sum in `failed_attempts` is taken
  modulo 256 (Rust release-mode wrapping addition; in a build with
  overflow checks the same inputs abort, so under either semantics the
  sum is not the mathematical sum once it exceeds 255).
* `HashMap` is modelled as an association list with insert-overwrites
  semantics (`alist.insert` / `alist.find`); `HashSet` as a duplicate-free
  `List` with membership-guarded insert.
* External collaborators (the execution engine, the store, the slot
  clock, fork choice, the proposer/pubkey caches, the data-availability
  checker and signature/kzg cryptography) are parameters of the embedded
  functions, mirroring the narrow interfaces the code consumes.
-/

set_option autoImplicit false

namespace Lighthouse

/-! ## Association-list model of `HashMap` -/

namespace alist

variable {α β : Type} [DecidableEq α]

/-- `HashMap::insert`: later inserts overwrite earlier ones. -/
def insert (m : List (α × β)) (k : α) (v : β) : List (α × β) :=
  (k, v) :: m.filter (fun p => p.1 ≠ k)

/-- `HashMap::get`. -/
def find (m : List (α × β)) (k : α) : Option β :=
  (m.find? (fun p => p.1 = k)).map (·.2)

/-- `HashMap::remove`. -/
def erase (m : List (α × β)) (k : α) : List (α × β) :=
  m.filter (fun p => p.1 ≠ k)

/-- `HashMap::contains_key`. -/
def mem (m : List (α × β)) (k : α) : Bool :=
  m.any (fun p => p.1 = k)

end alist

/-! ## `beacon_block_streamer.rs`: data model -/

/-- The fields of `ExecutionPayloadHeader` that the streamer reads
(`block_hash()`, `block_number()`, `transactions_root()`); the remaining
fields (parent hash, state root, gas, timestamp, logs bloom, ...) are
collapsed into `rest`, so structural equality of headers is preserved. -/
structure ExecutionPayloadHeader where
  block_hash : Nat
  block_number : Nat
  transactions_root : Nat
  rest : Nat
  deriving DecidableEq, Repr

/-- The part of `SignedBlindedBeaconBlock` the streamer reads:
`canonical_root()` and `message().slot()`. -/
structure SignedBlindedBeaconBlock where
  canonical_root : Nat
  slot : Nat
  deriving DecidableEq, Repr

/-- `BlockParts<E>`: a blinded block, its claimed execution payload header,
and an optional execution payload body delivered by the engine. -/
structure BlockParts (Body : Type) where
  blinded_block : SignedBlindedBeaconBlock
  header : ExecutionPayloadHeader
  body : Option Body

/-- `BlockParts::new` (body starts out absent). -/
def BlockParts.new {Body : Type} (blinded : SignedBlindedBeaconBlock)
    (header : ExecutionPayloadHeader) : BlockParts Body :=
  { blinded_block := blinded, header := header, body := none }

/-- `BlockParts::root`. -/
def BlockParts.root {Body : Type} (bp : BlockParts Body) : Nat :=
  bp.blinded_block.canonical_root

/-- `BlockParts::slot`. -/
def BlockParts.slot {Body : Type} (bp : BlockParts Body) : Nat :=
  bp.blinded_block.slot

/-- `BlockParts::block_hash` (`self.header.block_hash()`). -/
def BlockParts.block_hash {Body : Type} (bp : BlockParts Body) : Nat :=
  bp.header.block_hash

/-- The errors of `BeaconChainError` / `beacon_block_streamer::Error` that
the streamer can store in a block result.  Engine errors
(`execution_layer::Error`) are opaque and modelled as `Nat`. -/
inductive BeaconChainError where
  | InconsistentPayloadReconstructed
      (slot : Nat) (exec_block_hash : Nat)
      (canonical_transactions_root : Nat)
      (reconstructed_transactions_root : Nat)
  | BlockHashMissingFromExecutionLayer (hash : Nat)
  | PayloadReconstruction (msg : String)
  | AddPayloadLogicError
  | BlocksByHashFailure (e : Nat)
  | BlocksByRangeFailure (e : Nat)
  | BlockNotFound
  | BlockVariantLacksExecutionPayload (root : Nat)
  | StoreError (e : Nat)
  deriving DecidableEq, Repr

/-- `BlockResult<E> = Result<Option<Arc<SignedBeaconBlock<E>>>, BeaconChainError>`. -/
def BlockResult (FullBlock : Type) : Type :=
  Except BeaconChainError (Option FullBlock)

/-- The collaborator operations reconstruction invokes; they live in the
`execution_layer` and `types` crates, outside this file:
`ExecutionPayloadBodyV1::to_payload`, `ExecutionPayloadHeader::from`
(recompute a header from a payload) and
`SignedBlindedBeaconBlock::try_into_full_block`. -/
structure ReconOps (Body Payload FullBlock : Type) where
  to_payload : Body → ExecutionPayloadHeader → Except String Payload
  header_of_payload : Payload → ExecutionPayloadHeader
  try_into_full_block : SignedBlindedBeaconBlock → Payload → Option FullBlock

/-- The body of the loop of `reconstruct_bocks` for one `(root, BlockParts)`
entry: combine the delivered body with the claimed header, compare the
recomputed header with the claimed one, and produce the stored result. -/
def reconstruct_one {Body Payload FullBlock : Type}
    (ops : ReconOps Body Payload FullBlock) (block_parts : BlockParts Body) :
    BlockResult FullBlock :=
  match block_parts.body with
  | some payload_body =>
    match ops.to_payload payload_body block_parts.header with
    | Except.ok payload =>
      let header_from_payload := ops.header_of_payload payload
      if header_from_payload = block_parts.header then
        match ops.try_into_full_block block_parts.blinded_block payload with
        | some full_block => Except.ok (some full_block)
        | none => Except.error BeaconChainError.AddPayloadLogicError
      else
        Except.error (BeaconChainError.InconsistentPayloadReconstructed
          block_parts.blinded_block.slot
          block_parts.header.block_hash
          block_parts.header.transactions_root
          (ops.header_of_payload payload).transactions_root)
    | Except.error msg =>
      Except.error (BeaconChainError.PayloadReconstruction msg)
  | none =>
    Except.error (BeaconChainError.BlockHashMissingFromExecutionLayer
      block_parts.block_hash)

/-- `reconstruct_bocks`: fold the per-entry reconstruction over the map of
block parts that have been matched with bodies, inserting each stored
result into `block_map`. -/
def reconstruct_bocks {Body Payload FullBlock : Type}
    (ops : ReconOps Body Payload FullBlock)
    (block_map : List (Nat × BlockResult FullBlock))
    (block_parts_with_bodies : List (Nat × BlockParts Body)) :
    List (Nat × BlockResult FullBlock) :=
  block_parts_with_bodies.foldl
    (fun m entry => alist.insert m entry.1 (reconstruct_one ops entry.2))
    block_map

/-! ## `beacon_block_streamer.rs`: request batches -/

/-- `RequestState<E>`: a batch is either unsent (holding its pending block
parts) or sent (holding the cached root-to-result map). -/
inductive RequestState (Body FullBlock : Type) where
  | UnSent (parts : List (BlockParts Body))
  | Sent (map : List (Nat × BlockResult FullBlock))

/-- `BodiesByHash<E>`. -/
structure BodiesByHash (Body FullBlock : Type) where
  hashes : Option (List Nat)
  state : RequestState Body FullBlock

/-- `BodiesByRange<E>`. -/
structure BodiesByRange (Body FullBlock : Type) where
  start : Nat
  count : Nat
  state : RequestState Body FullBlock

/-- `BodiesByHash::new`. -/
def BodiesByHash.new {Body FullBlock : Type}
    (maybe_block_parts : Option (BlockParts Body)) : BodiesByHash Body FullBlock :=
  match maybe_block_parts with
  | some block_parts =>
    { hashes := some [block_parts.block_hash],
      state := RequestState.UnSent [block_parts] }
  | none =>
    { hashes := none, state := RequestState.UnSent [] }

/-- `BodiesByHash::push_block_parts`; mutation is modelled by returning the
new batch together with `Result<(), BlockParts>`. -/
def BodiesByHash.push_block_parts {Body FullBlock : Type}
    (self : BodiesByHash Body FullBlock) (block_parts : BlockParts Body) :
    BodiesByHash Body FullBlock × Except (BlockParts Body) Unit :=
  if (self.hashes.map List.length).getD 0 = 32 then
    -- this request is full
    (self, Except.error block_parts)
  else
    match self.state with
    | RequestState.Sent _ => (self, Except.error block_parts)
    | RequestState.UnSent blocks_parts_vec =>
      ({ hashes := some (self.hashes.getD [] ++ [block_parts.block_hash]),
         state := RequestState.UnSent (blocks_parts_vec ++ [block_parts]) },
       Except.ok ())

/-- `BodiesByRange::new`. -/
def BodiesByRange.new {Body FullBlock : Type}
    (maybe_block_parts : Option (BlockParts Body)) : BodiesByRange Body FullBlock :=
  match maybe_block_parts with
  | some block_parts =>
    { start := block_parts.header.block_number,
      count := 1,
      state := RequestState.UnSent [block_parts] }
  | none =>
    { start := 0, count := 0, state := RequestState.UnSent [] }

/-- `BodiesByRange::push_block_parts`. -/
def BodiesByRange.push_block_parts {Body FullBlock : Type}
    (self : BodiesByRange Body FullBlock) (block_parts : BlockParts Body) :
    BodiesByRange Body FullBlock × Except (BlockParts Body) Unit :=
  if self.count = 32 then
    (self, Except.error block_parts)
  else
    match self.state with
    | RequestState.Sent _ => (self, Except.error block_parts)
    | RequestState.UnSent blocks_parts_vec =>
      let block_number := block_parts.header.block_number
      if self.count = 0 then
        ({ start := block_number, count := 1,
           state := RequestState.UnSent (blocks_parts_vec ++ [block_parts]) },
         Except.ok ())
      else
        -- need to figure out if this block fits in the request
        if block_number < self.start ∨ self.start + 31 < block_number then
          (self, Except.error block_parts)
        else
          ({ start := self.start,
             count := if self.start + self.count ≤ block_number then
                 block_number - self.start + 1
               else self.count,
             state := RequestState.UnSent (blocks_parts_vec ++ [block_parts]) },
           Except.ok ())

/-- The `zip(bodies.chain(repeat(None)))` + `collect::<HashMap>` step common
to both `execute` methods: pair each key with the delivered optional body
(missing tail entries become `None`); on duplicate keys a `HashMap` collect
keeps the last pair. -/
def collect_body_map {Body : Type} (keys : List Nat) (bodies : List (Option Body)) :
    List (Nat × Option Body) :=
  (keys.zip (bodies ++ List.replicate keys.length none)).foldl
    (fun m p => alist.insert m p.1 p.2) []

/-- The `with_bodies` loop common to both `execute` methods: walk the pending
block parts in order; for a root not seen yet (`entry().or_insert_with()`
skips duplicates), take (`remove` + `flatten`) that part's body out of the
body map under `key_of` (the execution block hash for by-hash, the block
number for by-range) and record the part, keyed by root, with that body. -/
def assign_bodies {Body : Type} (key_of : BlockParts Body → Nat) :
    List (BlockParts Body) → List (Nat × Option Body) →
    List (Nat × BlockParts Body) → List (Nat × BlockParts Body)
  | [], _, with_bodies => with_bodies
  | block_parts :: rest, body_map, with_bodies =>
    if alist.mem with_bodies block_parts.root then
      assign_bodies key_of rest body_map with_bodies
    else
      let body := (alist.find body_map (key_of block_parts)).join
      assign_bodies key_of rest (alist.erase body_map (key_of block_parts))
        (with_bodies ++ [(block_parts.root, { block_parts with body := body })])

/-- `BodiesByHash::execute`.  The execution layer is a parameter
(`get_payload_bodies_by_hash`); the second component counts the engine
calls the invocation issued (0 or 1). -/
def BodiesByHash.execute {Body Payload FullBlock : Type}
    (self : BodiesByHash Body FullBlock)
    (ops : ReconOps Body Payload FullBlock)
    (get_payload_bodies_by_hash : List Nat → Except Nat (List (Option Body))) :
    BodiesByHash Body FullBlock × Nat :=
  match self.state with
  | RequestState.UnSent block_parts_vec =>
    match self.hashes with
    | some hashes =>
      let block_map :=
        match get_payload_bodies_by_hash hashes with
        | Except.ok bodies =>
          let body_map := collect_body_map hashes bodies
          let with_bodies := assign_bodies BlockParts.block_hash block_parts_vec body_map []
          reconstruct_bocks ops [] with_bodies
        | Except.error e =>
          let block_result : BlockResult FullBlock :=
            Except.error (BeaconChainError.BlocksByHashFailure e)
          block_parts_vec.foldl
            (fun m block_parts => alist.insert m block_parts.root block_result) []
      ({ hashes := none, state := RequestState.Sent block_map }, 1)
    | none => (self, 0)
  | RequestState.Sent _ => (self, 0)

/-- `BodiesByRange::execute` (`get_payload_bodies_by_range` is the engine
parameter; the second component counts engine calls). -/
def BodiesByRange.execute {Body Payload FullBlock : Type}
    (self : BodiesByRange Body FullBlock)
    (ops : ReconOps Body Payload FullBlock)
    (get_payload_bodies_by_range : Nat → Nat → Except Nat (List (Option Body))) :
    BodiesByRange Body FullBlock × Nat :=
  match self.state with
  | RequestState.UnSent block_parts_vec =>
    let block_map :=
      match get_payload_bodies_by_range self.start self.count with
      | Except.ok bodies =>
        let range_map := collect_body_map
          (List.range' self.start self.count) bodies
        let with_bodies := assign_bodies
          (fun bp => bp.header.block_number) block_parts_vec range_map []
        reconstruct_bocks ops [] with_bodies
      | Except.error e =>
        let block_result : BlockResult FullBlock :=
          Except.error (BeaconChainError.BlocksByRangeFailure e)
        block_parts_vec.foldl
          (fun m block_parts => alist.insert m block_parts.root block_result) []
    ({ start := self.start, count := self.count,
       state := RequestState.Sent block_map }, 1)
  | RequestState.Sent _ => (self, 0)

/-- `BodiesByHash::get_block_result`: execute, then look the root up in the
cached map (`None` when the state is somehow still unsent). -/
def BodiesByHash.get_block_result {Body Payload FullBlock : Type}
    (self : BodiesByHash Body FullBlock)
    (root : Nat)
    (ops : ReconOps Body Payload FullBlock)
    (get_payload_bodies_by_hash : List Nat → Except Nat (List (Option Body))) :
    BodiesByHash Body FullBlock × Option (BlockResult FullBlock) :=
  let executed := (self.execute ops get_payload_bodies_by_hash).1
  match executed.state with
  | RequestState.Sent map => (executed, alist.find map root)
  | RequestState.UnSent _ => (executed, none)

/-- `BodiesByRange::get_block_result`. -/
def BodiesByRange.get_block_result {Body Payload FullBlock : Type}
    (self : BodiesByRange Body FullBlock)
    (root : Nat)
    (ops : ReconOps Body Payload FullBlock)
    (get_payload_bodies_by_range : Nat → Nat → Except Nat (List (Option Body))) :
    BodiesByRange Body FullBlock × Option (BlockResult FullBlock) :=
  let executed := (self.execute ops get_payload_bodies_by_range).1
  match executed.state with
  | RequestState.Sent map => (executed, alist.find map root)
  | RequestState.UnSent _ => (executed, none)

/-! ## `beacon_block_streamer.rs`: the streamer -/

/-- A blinded block as the streamer reads it: root and slot, plus the
execution payload header extracted by
`message().execution_payload().map(to_execution_payload_header)` —
`none` models the `Err` of a pre-merge block variant that lacks an
execution payload. -/
structure BlindedBlockRec where
  block : SignedBlindedBeaconBlock
  payload_header : Option ExecutionPayloadHeader

/-- `store::DatabaseBlock`. -/
inductive DatabaseBlock (FullBlock : Type) where
  | Full (block : FullBlock)
  | Blinded (block : BlindedBlockRec)

/-- `LoadedBeaconBlock<E>`. -/
inductive LoadedBeaconBlock (FullBlock : Type) where
  | Full (block : FullBlock)
  | Blinded (block : BlindedBlockRec)

/-- `LoadResult<E>`. -/
def LoadResult (FullBlock : Type) : Type :=
  Except BeaconChainError (Option (LoadedBeaconBlock FullBlock))

/-- The collaborators `BeaconBlockStreamer` consumes: the early-attester
cache, the store (`try_get_full_block`), the finalized slot read from fork
choice, the reconstruction operations and the two engine endpoints. -/
structure StreamerCtx (Body Payload FullBlock : Type) where
  check_early_attester_cache : Bool
  early_attester_cache_get : Nat → Option FullBlock
  try_get_full_block : Nat → Except Nat (Option (DatabaseBlock FullBlock))
  finalized_slot : Nat
  ops : ReconOps Body Payload FullBlock
  get_payload_bodies_by_hash : List Nat → Except Nat (List (Option Body))
  get_payload_bodies_by_range : Nat → Nat → Except Nat (List (Option Body))

/-- `BeaconBlockStreamer::load_payloads`: one `(root, LoadResult)` entry per
requested root, in request order. -/
def load_payloads {Body Payload FullBlock : Type}
    (ctx : StreamerCtx Body Payload FullBlock) (block_roots : List Nat) :
    List (Nat × LoadResult FullBlock) :=
  block_roots.map fun root =>
    (root,
      match (if ctx.check_early_attester_cache
             then ctx.early_attester_cache_get root else none) with
      | some cached_block =>
        Except.ok (some (LoadedBeaconBlock.Full cached_block))
      | none =>
        match ctx.try_get_full_block root with
        | Except.error e => Except.error (BeaconChainError.StoreError e)
        | Except.ok opt_block =>
          Except.ok (opt_block.map fun db_block =>
            match db_block with
            | DatabaseBlock.Full block => LoadedBeaconBlock.Full block
            | DatabaseBlock.Blinded block => LoadedBeaconBlock.Blinded block))

/-- Which `EngineRequest` a root was mapped to in the request map: the
`i`-th by-hash batch, the `i`-th by-range batch (creation order), or the
shared no-request result map. -/
inductive Assign where
  | byHash (i : Nat)
  | byRange (i : Nat)
  | noRequest
  deriving DecidableEq, Repr

/-- `EngineRequest::push_block_parts` on the by-hash variant: push into the
current batch (head of the creation-order-reversed list); if the batch
rejects the item, replace the current batch by a fresh one seeded with the
item.  Returns the creation-order index of the accepting batch. -/
def push_by_hash {Body FullBlock : Type}
    (batches : List (BodiesByHash Body FullBlock)) (block_parts : BlockParts Body) :
    List (BodiesByHash Body FullBlock) × Nat :=
  match batches with
  | [] => ([BodiesByHash.new (some block_parts)], 0)
  | current :: rest =>
    match current.push_block_parts block_parts with
    | (current', Except.ok _) => (current' :: rest, rest.length)
    | (_, Except.error rejected) =>
      (BodiesByHash.new (some rejected) :: current :: rest, rest.length + 1)

/-- `EngineRequest::push_block_parts` on the by-range variant. -/
def push_by_range {Body FullBlock : Type}
    (batches : List (BodiesByRange Body FullBlock)) (block_parts : BlockParts Body) :
    List (BodiesByRange Body FullBlock) × Nat :=
  match batches with
  | [] => ([BodiesByRange.new (some block_parts)], 0)
  | current :: rest =>
    match current.push_block_parts block_parts with
    | (current', Except.ok _) => (current' :: rest, rest.length)
    | (_, Except.error rejected) =>
      (BodiesByRange.new (some rejected) :: current :: rest, rest.length + 1)

/-- The accumulator of `get_requests`: the roots in request order, the
deferred by-range candidates, the by-hash batches created so far (head =
current), the shared `NoRequest` result map, and the root-to-request map. -/
structure ReqBuild (Body FullBlock : Type) where
  ordered_block_roots : List Nat
  by_range_blocks : List (BlockParts Body)
  by_hash_rev : List (BodiesByHash Body FullBlock)
  no_request : List (Nat × BlockResult FullBlock)
  assignment : List (Nat × Assign)

/-- One iteration of the first loop of `get_requests`. -/
def get_requests_step {Body Payload FullBlock : Type}
    (ctx : StreamerCtx Body Payload FullBlock)
    (st : ReqBuild Body FullBlock) (payload : Nat × LoadResult FullBlock) :
    ReqBuild Body FullBlock :=
  -- preserve the order of the requested blocks
  let st := { st with
    ordered_block_roots := st.ordered_block_roots ++ [payload.1] }
  match payload.2 with
  | Except.ok (some (LoadedBeaconBlock.Blinded blinded_block)) =>
    match blinded_block.payload_header with
    | some header =>
      let block_parts : BlockParts Body := BlockParts.new blinded_block.block header
      if block_parts.slot ≤ ctx.finalized_slot then
        -- this is a by_range request
        { st with by_range_blocks := st.by_range_blocks ++ [block_parts] }
      else
        -- this is a by_hash request
        let pushed := push_by_hash st.by_hash_rev block_parts
        { st with
          by_hash_rev := pushed.1,
          assignment := alist.insert st.assignment payload.1 (Assign.byHash pushed.2) }
    | none =>
      { st with
        no_request := alist.insert st.no_request payload.1
          (Except.error (BeaconChainError.BlockVariantLacksExecutionPayload payload.1)),
        assignment := alist.insert st.assignment payload.1 Assign.noRequest }
  | no_request_load_result =>
    -- no request when there's an error, or the block doesn't exist, or we
    -- already have the full block
    let block_result : BlockResult FullBlock :=
      match no_request_load_result with
      | Except.error e => Except.error e
      | Except.ok none => Except.ok none
      | Except.ok (some (LoadedBeaconBlock.Full full_block)) =>
        Except.ok (some full_block)
      | Except.ok (some (LoadedBeaconBlock.Blinded _)) =>
        -- unreachable: the previous arm of the outer match consumed this case
        Except.ok none
    { st with
      no_request := alist.insert st.no_request payload.1 block_result,
      assignment := alist.insert st.assignment payload.1 Assign.noRequest }

/-- Stable insertion into a slot-sorted list (`sort_by_key` is stable). -/
def insert_by_slot {Body : Type} (block_parts : BlockParts Body) :
    List (BlockParts Body) → List (BlockParts Body)
  | [] => [block_parts]
  | x :: xs =>
    if block_parts.slot ≤ x.slot then block_parts :: x :: xs
    else x :: insert_by_slot block_parts xs

/-- Stable sort of the by-range candidates in order of increasing slot. -/
def sort_by_slot {Body : Type} : List (BlockParts Body) → List (BlockParts Body)
  | [] => []
  | x :: xs => insert_by_slot x (sort_by_slot xs)

/-- The final request map produced by `get_requests`: by-hash and by-range
batch stores in creation order, the no-request map, and the assignment. -/
structure Requests (Body FullBlock : Type) where
  by_hash : List (BodiesByHash Body FullBlock)
  by_range : List (BodiesByRange Body FullBlock)
  no_request : List (Nat × BlockResult FullBlock)
  assignment : List (Nat × Assign)

/-- `BeaconBlockStreamer::get_requests`: classify every loaded payload,
then pack the slot-sorted by-range candidates; returns the roots in the
original request order together with the root-to-request mapping. -/
def get_requests {Body Payload FullBlock : Type}
    (ctx : StreamerCtx Body Payload FullBlock)
    (payloads : List (Nat × LoadResult FullBlock)) :
    List Nat × Requests Body FullBlock :=
  let st := payloads.foldl (get_requests_step ctx)
    { ordered_block_roots := []
      by_range_blocks := []
      by_hash_rev := []
      no_request := []
      assignment := [] }
  -- now deal with the by_range requests, sorted in order of increasing slot
  let packed := (sort_by_slot st.by_range_blocks).foldl
    (fun (acc : List (BodiesByRange Body FullBlock) × List (Nat × Assign)) block_parts =>
      let pushed := push_by_range acc.1 block_parts
      (pushed.1, alist.insert acc.2 block_parts.root (Assign.byRange pushed.2)))
    ([], st.assignment)
  (st.ordered_block_roots,
   { by_hash := st.by_hash_rev.reverse
     by_range := packed.1.reverse
     no_request := st.no_request
     assignment := packed.2 })

/-- `EngineRequest::get_block_result`, looked up through the request map:
drive the assigned batch's `get_block_result` (which executes the batch if
unsent) and fall back to the `BlockNotFound` error when no result is found
for a tracked root.  The updated batch store models the shared mutable
batch cell. -/
def request_map_get_result {Body Payload FullBlock : Type}
    (ctx : StreamerCtx Body Payload FullBlock)
    (req : Requests Body FullBlock) (root : Nat) :
    Requests Body FullBlock × BlockResult FullBlock :=
  match alist.find req.assignment root with
  | none => (req, Except.error BeaconChainError.BlockNotFound)
  | some Assign.noRequest =>
    (req,
      match alist.find req.no_request root with
      | some result => result
      | none => Except.error BeaconChainError.BlockNotFound)
  | some (Assign.byHash i) =>
    match req.by_hash.get? i with
    | none => (req, Except.error BeaconChainError.BlockNotFound)
    | some batch =>
      let driven := batch.get_block_result root ctx.ops ctx.get_payload_bodies_by_hash
      ({ req with by_hash := req.by_hash.set i driven.1 },
       driven.2.getD (Except.error BeaconChainError.BlockNotFound))
  | some (Assign.byRange i) =>
    match req.by_range.get? i with
    | none => (req, Except.error BeaconChainError.BlockNotFound)
    | some batch =>
      let driven := batch.get_block_result root ctx.ops ctx.get_payload_bodies_by_range
      ({ req with by_range := req.by_range.set i driven.1 },
       driven.2.getD (Except.error BeaconChainError.BlockNotFound))

/-- The body of the emission loop of `stream_blocks`: drive the request
assigned to `root` and append the `(root, result)` pair to the channel. -/
def stream_emit {Body Payload FullBlock : Type}
    (ctx : StreamerCtx Body Payload FullBlock)
    (st : Requests Body FullBlock × List (Nat × BlockResult FullBlock))
    (root : Nat) :
    Requests Body FullBlock × List (Nat × BlockResult FullBlock) :=
  let driven := request_map_get_result ctx st.1 root
  (driven.1, st.2 ++ [(root, driven.2)])

/-- `BeaconBlockStreamer::stream_blocks`: load, classify, then emit one
`(root, result)` pair per requested root in the original request order.
The returned list models the sequence sent over the (open) channel. -/
def stream_blocks {Body Payload FullBlock : Type}
    (ctx : StreamerCtx Body Payload FullBlock) (block_roots : List Nat) :
    List (Nat × BlockResult FullBlock) :=
  let payloads := load_payloads ctx block_roots
  let requests := get_requests ctx payloads
  (requests.1.foldl (stream_emit ctx) (requests.2, [])).2

/-! ## `single_block_lookup.rs`: data model -/

-- Set-semantics list model of `HashSet<PeerId>`.
namespace hset

/-- `HashSet::insert`. -/
def insert (s : List Nat) (x : Nat) : List Nat :=
  if x ∈ s then s else s ++ [x]

/-- `HashSet::remove`. -/
def remove (s : List Nat) (x : Nat) : List Nat :=
  s.filter (fun y => y ≠ x)

end hset

/-- Modelled from the spec: `PeerShouldHave` is declared in
`block_lookups/mod.rs`, which is not among the sources; per the spec a
peer is either confirmed to hold the item (`BlockAndBlobs`, an available
peer) or unconfirmed (`Neither`, a potential peer), and only a confirmed
peer "should have" the block. -/
inductive PeerShouldHave where
  | BlockAndBlobs (peer_id : Nat)
  | Neither (peer_id : Nat)
  deriving DecidableEq, Repr

/-- Modelled from the spec: an empty response from a peer expected to have
the block is a real failure, from an unconfirmed peer it is benign. -/
def PeerShouldHave.should_have_block : PeerShouldHave → Bool
  | PeerShouldHave.BlockAndBlobs _ => true
  | PeerShouldHave.Neither _ => false

/-- `single_block_lookup::State`. -/
inductive LookupState where
  | AwaitingDownload
  | Downloading (peer_id : PeerShouldHave)
  | Processing (peer_id : PeerShouldHave)
  deriving DecidableEq, Repr

/-- `single_block_lookup::LookupVerifyError`. -/
inductive LookupVerifyError where
  | RootMismatch
  | NoBlockReturned
  | ExtraBlocksReturned
  | UnrequestedBlobId
  | ExtraBlobsReturned
  | NotEnoughBlobsReturned
  | InvalidIndex (i : Nat)
  | BenignFailure
  deriving DecidableEq, Repr

/-- `single_block_lookup::LookupRequestError`. -/
inductive LookupRequestError where
  | TooManyAttempts (cannot_process : Bool)
  | NoPeers
  deriving DecidableEq, Repr

/-- `SingleLookupRequestState<MAX_ATTEMPTS>`; the `u8` failure counters are
modelled as `Nat` values kept below 256 by the saturating increments. -/
structure SingleLookupRequestState where
  state : LookupState
  available_peers : List Nat
  potential_peers : List Nat
  used_peers : List Nat
  failed_processing : Nat
  failed_downloading : Nat
  component_processed : Bool
  deriving DecidableEq, Repr

/-- `SingleLookupRequestState::new`. -/
def SingleLookupRequestState.new (peer_source : PeerShouldHave) :
    SingleLookupRequestState :=
  let (available_peers, potential_peers) :=
    match peer_source with
    | PeerShouldHave.BlockAndBlobs peer_id => ([peer_id], ([] : List Nat))
    | PeerShouldHave.Neither peer_id => ([], [peer_id])
  { state := LookupState.AwaitingDownload
    available_peers := available_peers
    potential_peers := potential_peers
    used_peers := []
    failed_processing := 0
    failed_downloading := 0
    component_processed := false }

/-- `register_failure_processing` (`u8::saturating_add(1)`). -/
def SingleLookupRequestState.register_failure_processing
    (self : SingleLookupRequestState) : SingleLookupRequestState :=
  { self with
    failed_processing := min (self.failed_processing + 1) 255
    state := LookupState.AwaitingDownload }

/-- `register_failure_downloading` (`u8::saturating_add(1)`). -/
def SingleLookupRequestState.register_failure_downloading
    (self : SingleLookupRequestState) : SingleLookupRequestState :=
  { self with
    failed_downloading := min (self.failed_downloading + 1) 255
    state := LookupState.AwaitingDownload }

/-- `failed_attempts`: the `u8` sum `failed_processing + failed_downloading`.
A Rust release build wraps this addition modulo 256 (a build with overflow
checks aborts instead), so the sum is reduced modulo 256 here. -/
def SingleLookupRequestState.failed_attempts
    (self : SingleLookupRequestState) : Nat :=
  (self.failed_processing + self.failed_downloading) % 256

/-- `add_peer`: promote the peer from potential to available. -/
def SingleLookupRequestState.add_peer (self : SingleLookupRequestState)
    (peer_id : Nat) : SingleLookupRequestState :=
  { self with
    potential_peers := hset.remove self.potential_peers peer_id
    available_peers := hset.insert self.available_peers peer_id }

/-- `add_potential_peer`: the body inserts into `potential_peers` only when
the peer is already in `available_peers`. -/
def SingleLookupRequestState.add_potential_peer (self : SingleLookupRequestState)
    (peer_id : Nat) : SingleLookupRequestState :=
  if peer_id ∈ self.available_peers then
    { self with potential_peers := hset.insert self.potential_peers peer_id }
  else
    self

/-- `BlobIdentifier` (`types::blob_sidecar`). -/
structure BlobIdentifier where
  block_root : Nat
  index : Nat
  deriving DecidableEq, Repr

/-- The fields of `BlobSidecar` the lookup reads (`id()` and `index`). -/
structure BlobRec where
  block_root : Nat
  index : Nat
  deriving DecidableEq, Repr

/-- `BlobSidecar::id`. -/
def BlobRec.id (b : BlobRec) : BlobIdentifier :=
  { block_root := b.block_root, index := b.index }

/-- The part of `SignedBeaconBlock` the lookup reads: `get_block_root`
(an external hashing helper) is modelled as a stored field. -/
structure BlockRec where
  canonical_root : Nat
  deriving DecidableEq, Repr

/-- `UnknownParentComponents<E>`. -/
structure UnknownParentComponents where
  downloaded_block : Option BlockRec
  downloaded_blobs : List (Option BlobRec)
  deriving DecidableEq, Repr

/-- `SingleBlockLookup<MAX_ATTEMPTS, T>` (the `da_checker` collaborator is
passed to the operations that consult it). -/
structure SingleBlockLookup where
  requested_block_root : Nat
  requested_ids : List BlobIdentifier
  blob_download_queue : List (Option BlobRec)
  block_request_state : SingleLookupRequestState
  blob_request_state : SingleLookupRequestState
  unknown_parent_components : Option UnknownParentComponents
  deriving DecidableEq, Repr

/-- `SingleBlockLookup::verify_block`; mutation is modelled by returning
the updated lookup alongside the `Result`. -/
def SingleBlockLookup.verify_block (self : SingleBlockLookup)
    (block : Option BlockRec) :
    SingleBlockLookup × Except LookupVerifyError (Option (Nat × BlockRec)) :=
  match self.block_request_state.state with
  | LookupState.AwaitingDownload =>
    ({ self with
       block_request_state := self.block_request_state.register_failure_downloading },
     Except.error LookupVerifyError.ExtraBlocksReturned)
  | LookupState.Downloading peer_id =>
    match block with
    | some block =>
      let block_root := block.canonical_root
      if block_root ≠ self.requested_block_root then
        -- a download failure to prevent counting the attempt as a chain
        -- failure: simply a peer failure
        ({ self with
           block_request_state := self.block_request_state.register_failure_downloading },
         Except.error LookupVerifyError.RootMismatch)
      else
        ({ self with
           block_request_state :=
             { self.block_request_state with state := LookupState.Processing peer_id } },
         Except.ok (some (block_root, block)))
    | none =>
      if peer_id.should_have_block then
        ({ self with
           block_request_state := self.block_request_state.register_failure_downloading },
         Except.error LookupVerifyError.NoBlockReturned)
      else
        ({ self with
           block_request_state :=
             { self.block_request_state with state := LookupState.AwaitingDownload } },
         Except.error LookupVerifyError.BenignFailure)
  | LookupState.Processing _ =>
    match block with
    | some _ =>
      -- we sent the block for processing and received an extra block
      ({ self with
         block_request_state := self.block_request_state.register_failure_downloading },
       Except.error LookupVerifyError.ExtraBlocksReturned)
    | none =>
      -- simply the stream termination while already processing
      (self, Except.ok none)

/-- A write through `FixedVector`'s `IndexMut`, which panics when the index
is at or beyond the fixed length; `none` models the panic. -/
def fixed_list_set {α : Type} (l : List (Option α)) (i : Nat) (x : α) :
    Option (List (Option α)) :=
  if i < l.length then some (l.set i (some x)) else none

/-- `SingleBlockLookup::verify_blob`; the outer `Option` is `none` exactly
when the `blob_download_queue.index_mut(blob.index)` write is out of
bounds (the commented-out index validation in the source would have
rejected such a blob instead). -/
def SingleBlockLookup.verify_blob (self : SingleBlockLookup)
    (blob : Option BlobRec) :
    Option (SingleBlockLookup ×
      Except LookupVerifyError (Option (Nat × List (Option BlobRec)))) :=
  match self.blob_request_state.state with
  | LookupState.AwaitingDownload =>
    some ({ self with
            blob_request_state := self.blob_request_state.register_failure_downloading },
          Except.error LookupVerifyError.ExtraBlobsReturned)
  | LookupState.Downloading peer_source =>
    match blob with
    | some blob =>
      let received_id := blob.id
      if received_id ∉ self.requested_ids then
        some ({ self with
                blob_request_state := self.blob_request_state.register_failure_downloading },
              Except.error LookupVerifyError.UnrequestedBlobId)
      else
        -- state remains downloading until the stream terminator
        let requested_ids := self.requested_ids.filter (fun id => id ≠ received_id)
        let blob_index := blob.index
        match fixed_list_set self.blob_download_queue blob_index blob with
        | some queue =>
          some ({ self with
                  requested_ids := requested_ids
                  blob_download_queue := queue },
                Except.ok none)
        | none => none
    | none =>
      some ({ self with
              blob_request_state :=
                { self.blob_request_state with state := LookupState.Processing peer_source }
              blob_download_queue :=
                List.replicate self.blob_download_queue.length none },
            Except.ok (some (self.requested_block_root, self.blob_download_queue)))
  | LookupState.Processing _ =>
    match blob with
    | some _ =>
      some ({ self with
              blob_request_state := self.blob_request_state.register_failure_downloading },
            Except.error LookupVerifyError.ExtraBlobsReturned)
    | none =>
      some (self, Except.ok none)

/-- `SingleBlockLookup::request_block`.  `MAX_ATTEMPTS` is the const
generic; `da_has_block` is the collaborator answer
`da_checker.has_block(&requested_block_root)`; `choose` models
`iter().choose(&mut rand::thread_rng())`, returning `none` exactly on an
empty set (any such function is admitted).  The request payload is the
list of requested roots. -/
def SingleBlockLookup.request_block (self : SingleBlockLookup)
    (MAX_ATTEMPTS : Nat) (da_has_block : Bool)
    (choose : List Nat → Option Nat) :
    SingleBlockLookup × Except LookupRequestError (Option (Nat × List Nat)) :=
  let block_already_downloaded :=
    match self.unknown_parent_components with
    | some components => components.downloaded_block.isSome
    | none => da_has_block
  if block_already_downloaded then
    (self, Except.ok none)
  else if MAX_ATTEMPTS ≤ self.block_request_state.failed_attempts then
    (self, Except.error (LookupRequestError.TooManyAttempts
      (decide (self.block_request_state.failed_downloading ≤
        self.block_request_state.failed_processing))))
  else
    match choose self.block_request_state.available_peers with
    | some peer_id =>
      ({ self with
         block_request_state :=
           { self.block_request_state with
             used_peers := hset.insert self.block_request_state.used_peers peer_id
             state := LookupState.Downloading (PeerShouldHave.BlockAndBlobs peer_id) } },
       Except.ok (some (peer_id, [self.requested_block_root])))
    | none =>
      match choose self.block_request_state.potential_peers with
      | some peer_id =>
        ({ self with
           block_request_state :=
             { self.block_request_state with
               used_peers := hset.insert self.block_request_state.used_peers peer_id
               state := LookupState.Downloading (PeerShouldHave.Neither peer_id) } },
         Except.ok (some (peer_id, [self.requested_block_root])))
      | none => (self, Except.error LookupRequestError.NoPeers)

/-- `SingleBlockLookup::request_blobs`.  `missing_ids` is the collaborator
answer of `update_blobs_request` (the data-availability checker's
still-missing blob identifiers), which the method stores in
`requested_ids` before deciding; the request payload is the identifier
list. -/
def SingleBlockLookup.request_blobs (self : SingleBlockLookup)
    (MAX_ATTEMPTS : Nat) (missing_ids : List BlobIdentifier)
    (choose : List Nat → Option Nat) :
    SingleBlockLookup × Except LookupRequestError (Option (Nat × List BlobIdentifier)) :=
  let self := { self with requested_ids := missing_ids }
  if self.requested_ids.isEmpty then
    (self, Except.ok none)
  else if MAX_ATTEMPTS ≤ self.blob_request_state.failed_attempts then
    (self, Except.error (LookupRequestError.TooManyAttempts
      (decide (self.blob_request_state.failed_downloading ≤
        self.blob_request_state.failed_processing))))
  else
    match choose self.blob_request_state.available_peers with
    | some peer_id =>
      ({ self with
         blob_request_state :=
           { self.blob_request_state with
             used_peers := hset.insert self.blob_request_state.used_peers peer_id
             state := LookupState.Downloading (PeerShouldHave.BlockAndBlobs peer_id) } },
       Except.ok (some (peer_id, self.requested_ids)))
    | none =>
      match choose self.blob_request_state.potential_peers with
      | some peer_id =>
        ({ self with
           blob_request_state :=
             { self.blob_request_state with
               used_peers := hset.insert self.blob_request_state.used_peers peer_id
               state := LookupState.Downloading (PeerShouldHave.Neither peer_id) } },
         Except.ok (some (peer_id, self.requested_ids)))
      | none => (self, Except.error LookupRequestError.NoPeers)

/-! ## Failure-registration sequences (proof apparatus) -/

/-- A registered failure: the two public failure-registration calls of
`SingleLookupRequestState`. -/
inductive FailureOp where
  | processing
  | downloading
  deriving DecidableEq, Repr

/-- Apply a sequence of failure registrations. -/
def applyFailures (s : SingleLookupRequestState) : List FailureOp →
    SingleLookupRequestState
  | [] => s
  | FailureOp.processing :: rest =>
    applyFailures s.register_failure_processing rest
  | FailureOp.downloading :: rest =>
    applyFailures s.register_failure_downloading rest

/-- The number of processing failures registered by a sequence. -/
def countProcessing : List FailureOp → Nat
  | [] => 0
  | FailureOp.processing :: rest => countProcessing rest + 1
  | FailureOp.downloading :: rest => countProcessing rest

/-- The number of download failures registered by a sequence. -/
def countDownloading : List FailureOp → Nat
  | [] => 0
  | FailureOp.processing :: rest => countDownloading rest
  | FailureOp.downloading :: rest => countDownloading rest + 1

/-- A tracker that has absorbed 255 processing failures followed by 255
download failures (every call is legal on the public interface). -/
def exhaustedState : SingleLookupRequestState :=
  applyFailures (SingleLookupRequestState.new (PeerShouldHave.BlockAndBlobs 1))
    (List.replicate 255 FailureOp.processing ++
      List.replicate 255 FailureOp.downloading)

/-! ## `blob_verification.rs`: gossip validation -/

/-- The fields of `SignedBlobSidecar` / `BlobSidecar` that gossip
validation reads; the signature itself is checked by the collaborator
`verify_signature`. -/
structure BlobSidecarRec where
  slot : Nat
  index : Nat
  block_parent_root : Nat
  proposer_index : Nat
  block_root : Nat
  deriving DecidableEq, Repr

/-- The fork-choice block record consulted for the parent: its slot, root
and next-epoch shuffling decision block. -/
structure ProtoBlockRec where
  slot : Nat
  root : Nat
  next_epoch_shuffling_decision_block : Nat
  deriving DecidableEq, Repr

/-- `GossipBlobError<T>`; internal `BeaconChainError`s are carried as an
opaque code (0 = `UnableToReadSlot`, 1 = `ValidatorPubkeyCacheLockTimeout`). -/
inductive GossipBlobError where
  | FutureSlot (message_slot latest_permissible_slot : Nat)
  | BeaconChainError (e : Nat)
  | InvalidSubnet (expected received : Nat)
  | PastFinalizedSlot (blob_slot finalized_slot : Nat)
  | ProposerIndexMismatch (sidecar «local» : Nat)
  | ProposerSignatureInvalid
  | UnknownValidator (v : Nat)
  | BlobIsNotLaterThanParent (blob_slot parent_slot : Nat)
  | BlobParentUnknown (sidecar : BlobSidecarRec)
  | RepeatBlob (proposer slot index : Nat)
  deriving DecidableEq, Repr

/-- `GossipVerifiedBlob<T>`: only constructed by successful validation. -/
structure GossipVerifiedBlob where
  blob : BlobSidecarRec
  deriving DecidableEq, Repr

/-- The chain collaborators gossip validation consumes: the slot clock
(already combined with the maximum gossip clock disparity), the head's
finalized checkpoint epoch, the observed-sidecars set (read-path
`is_known` and write-path `observe_sidecar`, the latter returning whether
the sidecar was already seen), fork choice, the proposer shuffling cache,
the snapshot-cache/state-advance fallback that computes a proposer when
the cache misses, the validator pubkey cache, and signature
verification against a `(pubkey, fork)` pair. -/
structure GossipChainCtx where
  slots_per_epoch : Nat
  latest_permissible_slot : Option Nat
  finalized_epoch : Nat
  observed_is_known : Nat → Nat → Bool
  fork_choice_get_block : Nat → Option ProtoBlockRec
  proposer_cache_get_slot : Nat → Nat → Option (Nat × Nat)
  fallback_proposer : Nat → Except GossipBlobError (Nat × Nat)
  pubkey_cache_available : Bool
  pubkey_get : Nat → Option Nat
  verify_signature : Nat → Nat → Bool
  observe_sidecar : Nat → Nat → Bool

/-- `validate_blob_sidecar_for_gossip`. -/
def validate_blob_sidecar_for_gossip (ctx : GossipChainCtx)
    (signed_blob_sidecar : BlobSidecarRec) (subnet : Nat) :
    Except GossipBlobError GossipVerifiedBlob :=
  let blob_slot := signed_blob_sidecar.slot
  let blob_index := signed_blob_sidecar.index
  let block_parent_root := signed_blob_sidecar.block_parent_root
  let blob_proposer_index := signed_blob_sidecar.proposer_index
  let block_root := signed_blob_sidecar.block_root
  let blob_epoch := blob_slot / ctx.slots_per_epoch
  -- verify that the blob_sidecar was received on the correct subnet
  if blob_index ≠ subnet then
    Except.error (GossipBlobError.InvalidSubnet blob_index subnet)
  else
    -- verify that the sidecar is not from a future slot
    match ctx.latest_permissible_slot with
    | none => Except.error (GossipBlobError.BeaconChainError 0)
    | some latest_permissible_slot =>
      if blob_slot > latest_permissible_slot then
        Except.error (GossipBlobError.FutureSlot blob_slot latest_permissible_slot)
      else
        -- verify that the sidecar slot is greater than the latest finalized slot
        let latest_finalized_slot := ctx.finalized_epoch * ctx.slots_per_epoch
        if blob_slot ≤ latest_finalized_slot then
          Except.error (GossipBlobError.PastFinalizedSlot blob_slot latest_finalized_slot)
        else
          -- verify that this is the first sidecar for the (block_root, index) tuple
          if ctx.observed_is_known block_root blob_index then
            Except.error (GossipBlobError.RepeatBlob blob_proposer_index blob_slot blob_index)
          else
            -- check fork choice for the block's parent
            match ctx.fork_choice_get_block block_parent_root with
            | none =>
              Except.error (GossipBlobError.BlobParentUnknown signed_blob_sidecar)
            | some parent_block =>
              if parent_block.slot ≥ blob_slot then
                Except.error (GossipBlobError.BlobIsNotLaterThanParent blob_slot parent_block.slot)
              else
                -- proposer_index check before signature verification
                let proposer_shuffling_root :=
                  if parent_block.slot / ctx.slots_per_epoch = blob_epoch then
                    parent_block.next_epoch_shuffling_decision_block
                  else
                    parent_block.root
                let proposer_result :=
                  match ctx.proposer_cache_get_slot proposer_shuffling_root blob_slot with
                  | some proposer => Except.ok proposer
                  | none => ctx.fallback_proposer blob_slot
                match proposer_result with
                | Except.error e => Except.error e
                | Except.ok (proposer_index, fork) =>
                  if proposer_index ≠ blob_proposer_index then
                    Except.error (GossipBlobError.ProposerIndexMismatch
                      blob_proposer_index proposer_index)
                  else
                    -- signature verification
                    if ¬ ctx.pubkey_cache_available then
                      Except.error (GossipBlobError.BeaconChainError 1)
                    else
                      match ctx.pubkey_get proposer_index with
                      | none => Except.error (GossipBlobError.UnknownValidator proposer_index)
                      | some pubkey =>
                        if ¬ ctx.verify_signature pubkey fork then
                          Except.error GossipBlobError.ProposerSignatureInvalid
                        else
                          -- race-safe double-check of the seen cache before
                          -- marking the sidecar observed
                          if ctx.observe_sidecar block_root blob_index then
                            Except.error (GossipBlobError.RepeatBlob
                              proposer_index blob_slot blob_index)
                          else
                            Except.ok { blob := signed_blob_sidecar }

/-! ## Concrete instances used to evaluate the theorems -/

/-- Concrete reconstruction collaborators over `Nat`: a payload is its
body, and the header recomputed from payload `p` has every field `p`. -/
def reconOpsNat : ReconOps Nat Nat Nat :=
  { to_payload := fun body _ => Except.ok body
    header_of_payload := fun p =>
      { block_hash := p, block_number := p, transactions_root := p, rest := p }
    try_into_full_block := fun _ p => some p }

/-- A concrete entry whose delivered body recomputes to a header different
from the claimed one. -/
def mismatchParts : BlockParts Nat :=
  { blinded_block := { canonical_root := 7, slot := 3 }
    header := { block_hash := 5, block_number := 1, transactions_root := 9, rest := 0 }
    body := some 4 }

/-- `SingleBlockLookup::new` (`max_blobs` is `MaxBlobsPerBlock`, the fixed
capacity of the default blob download queue). -/
def SingleBlockLookup.new (requested_block_root : Nat)
    (unknown_parent_components : Option UnknownParentComponents)
    (peer_source : PeerShouldHave) (max_blobs : Nat) : SingleBlockLookup :=
  { requested_block_root := requested_block_root
    requested_ids := []
    blob_download_queue := List.replicate max_blobs none
    block_request_state := SingleLookupRequestState.new peer_source
    blob_request_state := SingleLookupRequestState.new peer_source
    unknown_parent_components := unknown_parent_components }

/-- A lookup whose block tracker has moved to `Processing`. -/
def processingLookup : SingleBlockLookup :=
  { SingleBlockLookup.new 1 none (PeerShouldHave.BlockAndBlobs 2) 4 with
    block_request_state :=
      { SingleLookupRequestState.new (PeerShouldHave.BlockAndBlobs 2) with
        state := LookupState.Processing (PeerShouldHave.BlockAndBlobs 2) } }

/-- A lookup downloading blobs that tracks an identifier whose index
equals the fixed queue capacity. -/
def oobLookup : SingleBlockLookup :=
  { SingleBlockLookup.new 1 none (PeerShouldHave.BlockAndBlobs 2) 4 with
    requested_ids := [{ block_root := 1, index := 4 }]
    blob_request_state :=
      { SingleLookupRequestState.new (PeerShouldHave.BlockAndBlobs 2) with
        state := LookupState.Downloading (PeerShouldHave.BlockAndBlobs 2) } }

/-- A lookup downloading blobs whose tracked identifier index is within
the fixed queue capacity. -/
def inBoundsLookup : SingleBlockLookup :=
  { SingleBlockLookup.new 1 none (PeerShouldHave.BlockAndBlobs 2) 4 with
    requested_ids := [{ block_root := 1, index := 2 }]
    blob_request_state :=
      { SingleLookupRequestState.new (PeerShouldHave.BlockAndBlobs 2) with
        state := LookupState.Downloading (PeerShouldHave.BlockAndBlobs 2) } }

/-- A register-failure sequence: one processing failure then two download
failures. -/
def failureOps3 : List FailureOp :=
  [FailureOp.processing, FailureOp.downloading, FailureOp.downloading]

/-- A lookup whose block tracker has absorbed `failureOps3`. -/
def c6Lookup : SingleBlockLookup :=
  { SingleBlockLookup.new 1 none (PeerShouldHave.BlockAndBlobs 7) 4 with
    block_request_state :=
      applyFailures (SingleLookupRequestState.new (PeerShouldHave.BlockAndBlobs 7))
        failureOps3 }

/-- The result of a sequence of `push_block_parts` calls on a
`BodiesByRange` batch: the final batch and the log pairing each pushed
item with the `Result` it produced. -/
def push_sequence {Body FullBlock : Type} (r : BodiesByRange Body FullBlock) :
    List (BlockParts Body) →
    BodiesByRange Body FullBlock ×
      List (BlockParts Body × Except (BlockParts Body) Unit)
  | [] => (r, [])
  | bp :: rest =>
    let pushed := r.push_block_parts bp
    let tail := push_sequence pushed.1 rest
    (tail.1, (bp, pushed.2) :: tail.2)

/-- The items a push log accepted, in order. -/
def acceptedOf {Body : Type}
    (log : List (BlockParts Body × Except (BlockParts Body) Unit)) :
    List (BlockParts Body) :=
  log.filterMap fun e =>
    match e.2 with
    | Except.ok _ => some e.1
    | Except.error _ => none

/-- The packing invariant of an unsent `BodiesByRange` batch whose accepted
items are `accepted`: the batch is unsent and holds exactly those items;
an empty batch still has the `new(None)` anchor `start = 0, count = 0`;
otherwise the first accepted item fixed `start` to its block number, every
accepted block number lies in the window `[start, start + 31]`, and
`count` equals the maximum accepted offset plus one (hence `count ≤ 32`). -/
def RangeInv {Body FullBlock : Type} (r : BodiesByRange Body FullBlock)
    (accepted : List (BlockParts Body)) : Prop :=
  r.state = RequestState.UnSent accepted ∧
  (accepted = [] → r.start = 0 ∧ r.count = 0) ∧
  (∀ a rest, accepted = a :: rest →
    r.start = a.header.block_number ∧
    (∀ bp ∈ accepted, r.start ≤ bp.header.block_number ∧
      bp.header.block_number ≤ r.start + 31) ∧
    r.count =
      (accepted.map fun bp => bp.header.block_number - r.start).foldl max 0 + 1 ∧
    r.count ≤ 32)

/-- A concrete block-parts value with block number 100. -/
def blockParts100 : BlockParts Nat :=
  { blinded_block := { canonical_root := 21, slot := 9 }
    header := { block_hash := 2, block_number := 100, transactions_root := 0, rest := 0 }
    body := none }

/-- A by-hash batch already in the `Sent` state. -/
def sentByHash : BodiesByHash Nat Nat :=
  { hashes := none, state := RequestState.Sent [] }

/-- A by-range batch already in the `Sent` state. -/
def sentByRange : BodiesByRange Nat Nat :=
  { start := 0, count := 0, state := RequestState.Sent [] }

/-- A concrete pending item for the failing-batch witness. -/
def failParts1 : BlockParts Nat :=
  { blinded_block := { canonical_root := 31, slot := 1 }
    header := { block_hash := 41, block_number := 7, transactions_root := 0, rest := 0 }
    body := none }

/-- A second concrete pending item for the failing-batch witness. -/
def failParts2 : BlockParts Nat :=
  { blinded_block := { canonical_root := 32, slot := 2 }
    header := { block_hash := 42, block_number := 8, transactions_root := 0, rest := 0 }
    body := none }

/-- An unsent by-hash batch holding the two concrete items. -/
def failingByHash : BodiesByHash Nat Nat :=
  { hashes := some [41, 42], state := RequestState.UnSent [failParts1, failParts2] }

/-- An unsent by-range batch holding the two concrete items. -/
def failingByRange : BodiesByRange Nat Nat :=
  { start := 7, count := 2, state := RequestState.UnSent [failParts1, failParts2] }

/-- A concrete chain context for evaluating the gossip-validation
theorems: 32 slots per epoch, finalized epoch 2, a permissive clock, and
empty collaborator caches. -/
def gossipCtx : GossipChainCtx :=
  { slots_per_epoch := 32
    latest_permissible_slot := some 100
    finalized_epoch := 2
    observed_is_known := fun _ _ => false
    fork_choice_get_block := fun _ => none
    proposer_cache_get_slot := fun _ _ => none
    fallback_proposer := fun _ => Except.error (GossipBlobError.BeaconChainError 0)
    pubkey_cache_available := true
    pubkey_get := fun _ => none
    verify_signature := fun _ _ => false
    observe_sidecar := fun _ _ => false }

/-- A sidecar whose slot equals the finalized checkpoint's start slot
(epoch 2 of 32-slot epochs starts at slot 64). -/
def finalizedSlotSidecar : BlobSidecarRec :=
  { slot := 64, index := 1, block_parent_root := 5, proposer_index := 3,
    block_root := 6 }

/-! ## Properties of the association-list `HashMap` model -/

namespace alist

variable {α β : Type} [DecidableEq α]

theorem find_insert_self (m : List (α × β)) (k : α) (v : β) :
    find (insert m k v) k = some v := by
  simp [find, insert]

theorem find_filter_ne (m : List (α × β)) (k k' : α) (h : k' ≠ k) :
    find (m.filter (fun p => p.1 ≠ k)) k' = find m k' := by
  induction m with
  | nil => rfl
  | cons p rest ih =>
    by_cases hp : p.1 = k
    · have hp' : ¬ (p.1 = k') := fun e => h (e ▸ hp)
      simp only [find] at ih ⊢
      rw [List.filter_cons_of_neg (by simpa using hp),
        List.find?_cons_of_neg _ (by simpa using hp')]
      exact ih
    · by_cases hq : p.1 = k'
      · simp only [find]
        rw [List.filter_cons_of_pos (by simpa using hp),
          List.find?_cons_of_pos _ (by simpa using hq),
          List.find?_cons_of_pos _ (by simpa using hq)]
      · simp only [find] at ih ⊢
        rw [List.filter_cons_of_pos (by simpa using hp),
          List.find?_cons_of_neg _ (by simpa using hq),
          List.find?_cons_of_neg _ (by simpa using hq)]
        exact ih

theorem find_insert_ne (m : List (α × β)) (k k' : α) (v : β) (h : k' ≠ k) :
    find (insert m k v) k' = find m k' := by
  simp only [insert, find]
  rw [List.find?_cons_of_neg _ (by simpa using fun e => h e.symm)]
  exact find_filter_ne m k k' h

end alist

/-! ## C1 -/

/-- C1: for a `BlockParts` entry with a delivered body, the stored
reconstruction result is a full block only when the header recomputed from
that body structurally equals the claimed header; when they differ, the
stored result is `InconsistentPayloadReconstructed` carrying the canonical
and the reconstructed transactions roots; and an entry without a body is
stored as `BlockHashMissingFromExecutionLayer` for its execution block
hash.  The last conjunct ties the per-entry result to the map
`reconstruct_bocks` stores it in. -/
theorem reconstruction_no_false_positives {Body Payload FullBlock : Type}
    (ops : ReconOps Body Payload FullBlock) (bp : BlockParts Body) :
    (∀ full_block, reconstruct_one ops bp = Except.ok (some full_block) →
      ∃ body payload, bp.body = some body ∧
        ops.to_payload body bp.header = Except.ok payload ∧
        ops.header_of_payload payload = bp.header) ∧
    (∀ body payload, bp.body = some body →
      ops.to_payload body bp.header = Except.ok payload →
      ops.header_of_payload payload ≠ bp.header →
      reconstruct_one ops bp =
        Except.error (BeaconChainError.InconsistentPayloadReconstructed
          bp.blinded_block.slot bp.header.block_hash
          bp.header.transactions_root
          (ops.header_of_payload payload).transactions_root)) ∧
    (bp.body = none →
      reconstruct_one ops bp =
        Except.error (BeaconChainError.BlockHashMissingFromExecutionLayer
          bp.block_hash)) ∧
    (∀ block_map root,
      alist.find (reconstruct_bocks ops block_map [(root, bp)]) root =
        some (reconstruct_one ops bp)) := by
  refine ⟨?_, ?_, ?_, ?_⟩
  · intro full_block h
    cases hb : bp.body with
    | none => simp [reconstruct_one, hb] at h
    | some body =>
      cases hp : ops.to_payload body bp.header with
      | error msg => simp [reconstruct_one, hb, hp] at h
      | ok payload =>
        by_cases he : ops.header_of_payload payload = bp.header
        · exact ⟨body, payload, hb ▸ rfl, hp, he⟩
        · simp [reconstruct_one, hb, hp, he] at h
  · intro body payload hb hp hne
    simp [reconstruct_one, hb, hp, hne]
  · intro hb
    simp [reconstruct_one, hb]
  · intro block_map root
    simpa [reconstruct_bocks] using
      alist.find_insert_self block_map root (reconstruct_one ops bp)

/-- Witness: the concrete mismatching entry is stored as the inconsistency
error carrying the canonical transactions root 9 and the reconstructed
transactions root 4. -/
theorem reconstruction_no_false_positives_witness :
    reconstruct_one reconOpsNat mismatchParts =
      Except.error (BeaconChainError.InconsistentPayloadReconstructed 3 5 9 4) :=
  (reconstruction_no_false_positives reconOpsNat mismatchParts).2.1 4 4 rfl rfl
    (by decide)

/-! ## C8 -/

/-- C8 counterexample: in the `AwaitingDownload` state even the empty
stream terminator is answered with the extra-blocks error, contradicting
the claim that the error arises exactly on non-empty responses. -/
theorem verify_block_empty_awaiting_counterexample :
    (SingleBlockLookup.new 1 none (PeerShouldHave.BlockAndBlobs 2) 4).block_request_state.state =
        LookupState.AwaitingDownload ∧
    ((SingleBlockLookup.new 1 none (PeerShouldHave.BlockAndBlobs 2) 4).verify_block none).2 =
        Except.error LookupVerifyError.ExtraBlocksReturned :=
  ⟨rfl, rfl⟩

/-- C8 amended: in `Processing` the extra-blocks error is returned exactly
when the response is non-empty (the empty terminator yields `Ok none`),
while in `AwaitingDownload` every response, empty or not, is answered with
the extra-blocks error. -/
theorem verify_block_extra_blocks (lk : SingleBlockLookup) (block : Option BlockRec) :
    (∀ peer_id, lk.block_request_state.state = LookupState.Processing peer_id →
      (((lk.verify_block block).2 =
          Except.error LookupVerifyError.ExtraBlocksReturned) ↔ block.isSome)) ∧
    (lk.block_request_state.state = LookupState.AwaitingDownload →
      (lk.verify_block block).2 =
        Except.error LookupVerifyError.ExtraBlocksReturned) := by
  constructor
  · intro peer_id hst
    cases block <;> simp [SingleBlockLookup.verify_block, hst]
  · intro hst
    simp [SingleBlockLookup.verify_block, hst]

/-- Witness: a non-empty response while processing is answered with the
extra-blocks error. -/
theorem verify_block_extra_blocks_witness :
    (processingLookup.verify_block (some { canonical_root := 1 })).2 =
      Except.error LookupVerifyError.ExtraBlocksReturned :=
  ((verify_block_extra_blocks processingLookup (some { canonical_root := 1 })).1
    (PeerShouldHave.BlockAndBlobs 2) rfl).mpr (by decide)

/-! ## C9 -/

/-- C9: `verify_blob` writes an accepted blob at position `blob.index`
without re-checking the index against the fixed queue capacity; the write
stays in bounds for every response under the precondition that every
still-requested identifier's index is below the capacity, and a lookup
tracking an identifier at the capacity is driven out of bounds (modelled
as `none`, the `IndexMut` panic) by the matching blob. -/
theorem verify_blob_index_bound (lk : SingleBlockLookup) :
    ((∀ id ∈ lk.requested_ids, id.index < lk.blob_download_queue.length) →
      ∀ blob, lk.verify_blob blob ≠ none) ∧
    oobLookup.verify_blob (some { block_root := 1, index := 4 }) = none := by
  constructor
  · intro hbound blob
    cases hst : lk.blob_request_state.state with
    | AwaitingDownload => simp [SingleBlockLookup.verify_blob, hst]
    | Processing peer_id =>
      cases blob <;> simp [SingleBlockLookup.verify_blob, hst]
    | Downloading peer_source =>
      cases blob with
      | none => simp [SingleBlockLookup.verify_blob, hst]
      | some b =>
        by_cases hmem : b.id ∈ lk.requested_ids
        · have hlt : b.index < lk.blob_download_queue.length := hbound b.id hmem
          simp [SingleBlockLookup.verify_blob, hst, hmem, fixed_list_set, hlt]
        · simp [SingleBlockLookup.verify_blob, hst, hmem]
  · rfl

/-- Witness: with every tracked identifier's index below the capacity, the
delivered blob is accepted without an out-of-bounds write. -/
theorem verify_blob_index_bound_witness :
    inBoundsLookup.verify_blob (some { block_root := 1, index := 2 }) ≠ none :=
  (verify_blob_index_bound inBoundsLookup).1 (by decide)
    (some { block_root := 1, index := 2 })

/-! ## C5 -/

/-- C5: `validate_blob_sidecar_for_gossip` runs its checks in order, the
first failing check short-circuiting: subnet equals the blob's index
(mismatch yields `InvalidSubnet` with expected = blob index and received =
declared subnet), then future slot beyond the clock tolerance, then slot
strictly after the finalized checkpoint's start slot (a slot equal to, or
before, that start slot is rejected as past-finalized), then duplicate
`(block_root, index)` observation, then parent known to fork choice (an
unknown parent yields the distinguishable `BlobParentUnknown` rejection
carrying the sidecar), then parent slot strictly less than the blob slot,
then proposer-index match, then signature validity. -/
theorem gossip_validation_check_order (ctx : GossipChainCtx)
    (sc : BlobSidecarRec) (subnet : Nat) :
    (sc.index ≠ subnet →
      validate_blob_sidecar_for_gossip ctx sc subnet =
        Except.error (GossipBlobError.InvalidSubnet sc.index subnet)) ∧
    (∀ lps, sc.index = subnet →
      ctx.latest_permissible_slot = some lps → lps < sc.slot →
      validate_blob_sidecar_for_gossip ctx sc subnet =
        Except.error (GossipBlobError.FutureSlot sc.slot lps)) ∧
    (∀ lps, sc.index = subnet →
      ctx.latest_permissible_slot = some lps → sc.slot ≤ lps →
      sc.slot ≤ ctx.finalized_epoch * ctx.slots_per_epoch →
      validate_blob_sidecar_for_gossip ctx sc subnet =
        Except.error (GossipBlobError.PastFinalizedSlot sc.slot
          (ctx.finalized_epoch * ctx.slots_per_epoch))) ∧
    (∀ lps, sc.index = subnet →
      ctx.latest_permissible_slot = some lps → sc.slot ≤ lps →
      ctx.finalized_epoch * ctx.slots_per_epoch < sc.slot →
      ctx.observed_is_known sc.block_root sc.index = true →
      validate_blob_sidecar_for_gossip ctx sc subnet =
        Except.error (GossipBlobError.RepeatBlob sc.proposer_index sc.slot sc.index)) ∧
    (∀ lps, sc.index = subnet →
      ctx.latest_permissible_slot = some lps → sc.slot ≤ lps →
      ctx.finalized_epoch * ctx.slots_per_epoch < sc.slot →
      ctx.observed_is_known sc.block_root sc.index = false →
      ctx.fork_choice_get_block sc.block_parent_root = none →
      validate_blob_sidecar_for_gossip ctx sc subnet =
        Except.error (GossipBlobError.BlobParentUnknown sc)) ∧
    (∀ lps parent_block, sc.index = subnet →
      ctx.latest_permissible_slot = some lps → sc.slot ≤ lps →
      ctx.finalized_epoch * ctx.slots_per_epoch < sc.slot →
      ctx.observed_is_known sc.block_root sc.index = false →
      ctx.fork_choice_get_block sc.block_parent_root = some parent_block →
      sc.slot ≤ parent_block.slot →
      validate_blob_sidecar_for_gossip ctx sc subnet =
        Except.error (GossipBlobError.BlobIsNotLaterThanParent sc.slot
          parent_block.slot)) ∧
    (∀ lps parent_block proposer_index fork, sc.index = subnet →
      ctx.latest_permissible_slot = some lps → sc.slot ≤ lps →
      ctx.finalized_epoch * ctx.slots_per_epoch < sc.slot →
      ctx.observed_is_known sc.block_root sc.index = false →
      ctx.fork_choice_get_block sc.block_parent_root = some parent_block →
      parent_block.slot < sc.slot →
      ctx.proposer_cache_get_slot
        (if parent_block.slot / ctx.slots_per_epoch = sc.slot / ctx.slots_per_epoch
         then parent_block.next_epoch_shuffling_decision_block
         else parent_block.root) sc.slot = some (proposer_index, fork) →
      proposer_index ≠ sc.proposer_index →
      validate_blob_sidecar_for_gossip ctx sc subnet =
        Except.error (GossipBlobError.ProposerIndexMismatch sc.proposer_index
          proposer_index)) ∧
    (∀ lps parent_block proposer_index fork pubkey, sc.index = subnet →
      ctx.latest_permissible_slot = some lps → sc.slot ≤ lps →
      ctx.finalized_epoch * ctx.slots_per_epoch < sc.slot →
      ctx.observed_is_known sc.block_root sc.index = false →
      ctx.fork_choice_get_block sc.block_parent_root = some parent_block →
      parent_block.slot < sc.slot →
      ctx.proposer_cache_get_slot
        (if parent_block.slot / ctx.slots_per_epoch = sc.slot / ctx.slots_per_epoch
         then parent_block.next_epoch_shuffling_decision_block
         else parent_block.root) sc.slot = some (proposer_index, fork) →
      proposer_index = sc.proposer_index →
      ctx.pubkey_cache_available = true →
      ctx.pubkey_get proposer_index = some pubkey →
      ctx.verify_signature pubkey fork = false →
      validate_blob_sidecar_for_gossip ctx sc subnet =
        Except.error GossipBlobError.ProposerSignatureInvalid) := by
  refine ⟨?_, ?_, ?_, ?_, ?_, ?_, ?_, ?_⟩
  · intro h1
    simp [validate_blob_sidecar_for_gossip, h1]
  · intro lps h1 h2 h3
    simp [validate_blob_sidecar_for_gossip, h1, h2, h3]
  · intro lps h1 h2 h3 h4
    have h3' : ¬ (lps < sc.slot) := by omega
    simp [validate_blob_sidecar_for_gossip, h1, h2, h3', h4]
  · intro lps h1 h2 h3 h4 h5
    have h3' : ¬ (lps < sc.slot) := by omega
    have h4' : ¬ (sc.slot ≤ ctx.finalized_epoch * ctx.slots_per_epoch) := by omega
    rw [h1] at h5
    simp [validate_blob_sidecar_for_gossip, h1, h2, h3', h4', h5]
  · intro lps h1 h2 h3 h4 h5 h6
    have h3' : ¬ (lps < sc.slot) := by omega
    have h4' : ¬ (sc.slot ≤ ctx.finalized_epoch * ctx.slots_per_epoch) := by omega
    rw [h1] at h5
    simp [validate_blob_sidecar_for_gossip, h1, h2, h3', h4', h5, h6]
  · intro lps parent_block h1 h2 h3 h4 h5 h6 h7
    have h3' : ¬ (lps < sc.slot) := by omega
    have h4' : ¬ (sc.slot ≤ ctx.finalized_epoch * ctx.slots_per_epoch) := by omega
    rw [h1] at h5
    simp [validate_blob_sidecar_for_gossip, h1, h2, h3', h4', h5, h6, h7]
  · intro lps parent_block proposer_index fork h1 h2 h3 h4 h5 h6 h7 h8 h9
    have h3' : ¬ (lps < sc.slot) := by omega
    have h4' : ¬ (sc.slot ≤ ctx.finalized_epoch * ctx.slots_per_epoch) := by omega
    have h7' : ¬ (sc.slot ≤ parent_block.slot) := by omega
    rw [h1] at h5
    simp [validate_blob_sidecar_for_gossip, h1, h2, h3', h4', h5, h6, h7', h8, h9]
  · intro lps parent_block proposer_index fork pubkey h1 h2 h3 h4 h5 h6 h7 h8 h9
      h10 h11 h12
    have h3' : ¬ (lps < sc.slot) := by omega
    have h4' : ¬ (sc.slot ≤ ctx.finalized_epoch * ctx.slots_per_epoch) := by omega
    have h7' : ¬ (sc.slot ≤ parent_block.slot) := by omega
    rw [h1] at h5
    rw [h9] at h11
    simp [validate_blob_sidecar_for_gossip, h1, h2, h3', h4', h5, h6, h7', h8, h9,
      h10, h11, h12]

/-- Witness: a sidecar whose slot equals the finalized checkpoint's start
slot (slot 64 at finalized epoch 2 with 32-slot epochs) is rejected as
past-finalized. -/
theorem gossip_validation_check_order_witness :
    validate_blob_sidecar_for_gossip gossipCtx finalizedSlotSidecar 1 =
      Except.error (GossipBlobError.PastFinalizedSlot 64 64) :=
  (gossip_validation_check_order gossipCtx finalizedSlotSidecar 1).2.2.1 100
    rfl rfl (by decide) (by decide)

/-! ## C6 -/

theorem register_processing_fp (s : SingleLookupRequestState) :
    s.register_failure_processing.failed_processing =
      min (s.failed_processing + 1) 255 := rfl

theorem register_processing_fd (s : SingleLookupRequestState) :
    s.register_failure_processing.failed_downloading =
      s.failed_downloading := rfl

theorem register_downloading_fp (s : SingleLookupRequestState) :
    s.register_failure_downloading.failed_processing =
      s.failed_processing := rfl

theorem register_downloading_fd (s : SingleLookupRequestState) :
    s.register_failure_downloading.failed_downloading =
      min (s.failed_downloading + 1) 255 := rfl

theorem applyFailures_counters :
    ∀ (ops : List FailureOp) (s : SingleLookupRequestState),
      s.failed_processing ≤ 255 → s.failed_downloading ≤ 255 →
      (applyFailures s ops).failed_processing =
        min (s.failed_processing + countProcessing ops) 255 ∧
      (applyFailures s ops).failed_downloading =
        min (s.failed_downloading + countDownloading ops) 255 := by
  intro ops
  induction ops with
  | nil =>
    intro s hp hd
    constructor
    · show s.failed_processing = min (s.failed_processing + countProcessing []) 255
      simp only [countProcessing, Nat.add_zero]
      exact (Nat.min_eq_left hp).symm
    · show s.failed_downloading = min (s.failed_downloading + countDownloading []) 255
      simp only [countDownloading, Nat.add_zero]
      exact (Nat.min_eq_left hd).symm
  | cons op rest ih =>
    intro s hp hd
    cases op with
    | processing =>
      obtain ⟨ih1, ih2⟩ := ih s.register_failure_processing
        (by rw [register_processing_fp]; omega)
        (by rw [register_processing_fd]; exact hd)
      rw [show applyFailures s (FailureOp.processing :: rest) =
        applyFailures s.register_failure_processing rest from rfl]
      rw [ih1, ih2, register_processing_fp, register_processing_fd]
      simp only [countProcessing, countDownloading]
      constructor
      · by_cases h1 : s.failed_processing + 1 ≤ 255
        · rw [Nat.min_eq_left h1]
          congr 1
          omega
        · rw [Nat.min_eq_right (show 255 ≤ s.failed_processing + 1 by omega),
            Nat.min_eq_right (show 255 ≤ 255 + countProcessing rest by omega),
            Nat.min_eq_right
              (show 255 ≤ s.failed_processing + (countProcessing rest + 1) by omega)]
      · trivial
    | downloading =>
      obtain ⟨ih1, ih2⟩ := ih s.register_failure_downloading
        (by rw [register_downloading_fp]; exact hp)
        (by rw [register_downloading_fd]; omega)
      rw [show applyFailures s (FailureOp.downloading :: rest) =
        applyFailures s.register_failure_downloading rest from rfl]
      rw [ih1, ih2, register_downloading_fp, register_downloading_fd]
      simp only [countProcessing, countDownloading]
      constructor
      · trivial
      · by_cases h1 : s.failed_downloading + 1 ≤ 255
        · rw [Nat.min_eq_left h1]
          congr 1
          omega
        · rw [Nat.min_eq_right (show 255 ≤ s.failed_downloading + 1 by omega),
            Nat.min_eq_right (show 255 ≤ 255 + countDownloading rest by omega),
            Nat.min_eq_right
              (show 255 ≤ s.failed_downloading + (countDownloading rest + 1) by omega)]

set_option maxRecDepth 10000 in
/-- C6 counterexample: both `u8` counters saturate at 255, so their `u8`
sum in `failed_attempts` wraps to 254 and differs from the mathematical
sum 510 (with overflow checks enabled the same call aborts instead of
returning the sum, so under either semantics `failed_attempts()` is not
`failed_downloading + failed_processing` at this reachable state). -/
theorem failed_attempts_wrap_counterexample :
    exhaustedState.failed_processing = 255 ∧
    exhaustedState.failed_downloading = 255 ∧
    exhaustedState.failed_attempts = 254 ∧
    exhaustedState.failed_attempts ≠
      exhaustedState.failed_processing + exhaustedState.failed_downloading := by
  refine ⟨by decide, by decide, by decide, by decide⟩

/-- C6 amended: along every register-failure sequence, each counter equals
the saturated count of its failure kind, so `failed_attempts()` equals
`failed_downloading + failed_processing` whenever that sum is below 256
(in general it is the sum modulo 256); and whenever `failed_attempts()`
has reached `MAX_ATTEMPTS` and the item is not already available
(`request_block` finds the block not yet downloaded, `request_blobs` finds
missing blob identifiers), `request_block` and `request_blobs` return the
`TooManyAttempts` error — for every peer-choice function, hence
deterministically — whose `cannot_process` flag is
`failed_processing ≥ failed_downloading`. -/
theorem failed_attempts_and_exhaustion :
    (∀ (ops : List FailureOp) (peer_source : PeerShouldHave),
      (applyFailures (SingleLookupRequestState.new peer_source) ops).failed_processing =
        min (countProcessing ops) 255 ∧
      (applyFailures (SingleLookupRequestState.new peer_source) ops).failed_downloading =
        min (countDownloading ops) 255 ∧
      (countProcessing ops + countDownloading ops ≤ 255 →
        (applyFailures (SingleLookupRequestState.new peer_source) ops).failed_attempts =
          (applyFailures (SingleLookupRequestState.new peer_source) ops).failed_processing +
          (applyFailures (SingleLookupRequestState.new peer_source) ops).failed_downloading)) ∧
    (∀ (lk : SingleBlockLookup) (MAX_ATTEMPTS : Nat) (da_has_block : Bool)
        (choose : List Nat → Option Nat),
      (match lk.unknown_parent_components with
        | some components => components.downloaded_block.isSome
        | none => da_has_block) = false →
      MAX_ATTEMPTS ≤ lk.block_request_state.failed_attempts →
      lk.request_block MAX_ATTEMPTS da_has_block choose =
        (lk, Except.error (LookupRequestError.TooManyAttempts
          (decide (lk.block_request_state.failed_downloading ≤
            lk.block_request_state.failed_processing))))) ∧
    (∀ (lk : SingleBlockLookup) (MAX_ATTEMPTS : Nat)
        (missing_ids : List BlobIdentifier) (choose : List Nat → Option Nat),
      missing_ids ≠ [] →
      MAX_ATTEMPTS ≤ lk.blob_request_state.failed_attempts →
      lk.request_blobs MAX_ATTEMPTS missing_ids choose =
        ({ lk with requested_ids := missing_ids },
         Except.error (LookupRequestError.TooManyAttempts
          (decide (lk.blob_request_state.failed_downloading ≤
            lk.blob_request_state.failed_processing))))) := by
  refine ⟨?_, ?_, ?_⟩
  · intro ops peer_source
    have hinit : (SingleLookupRequestState.new peer_source).failed_processing ≤ 255 ∧
        (SingleLookupRequestState.new peer_source).failed_downloading ≤ 255 := by
      cases peer_source <;> simp [SingleLookupRequestState.new]
    obtain ⟨h1, h2⟩ := applyFailures_counters ops _ hinit.1 hinit.2
    have hinit0 : (SingleLookupRequestState.new peer_source).failed_processing = 0 ∧
        (SingleLookupRequestState.new peer_source).failed_downloading = 0 := by
      cases peer_source <;> simp [SingleLookupRequestState.new]
    rw [hinit0.1] at h1
    rw [hinit0.2] at h2
    simp only [Nat.zero_add] at h1 h2
    refine ⟨h1, h2, ?_⟩
    intro hsum
    simp only [SingleLookupRequestState.failed_attempts, h1, h2]
    omega
  · intro lk MAX_ATTEMPTS da_has_block choose hdown hmax
    simp [SingleBlockLookup.request_block, hdown, hmax]
  · intro lk MAX_ATTEMPTS missing_ids choose hne hmax
    simp [SingleBlockLookup.request_blobs, hne, hmax]

/-- Witness: after one processing and two download failures,
`failed_attempts` is the plain sum 3, and with `MAX_ATTEMPTS = 3` the next
`request_block` returns `TooManyAttempts` with `cannot_process = false`. -/
theorem failed_attempts_and_exhaustion_witness :
    (applyFailures (SingleLookupRequestState.new (PeerShouldHave.BlockAndBlobs 7))
        failureOps3).failed_attempts =
      (applyFailures (SingleLookupRequestState.new (PeerShouldHave.BlockAndBlobs 7))
        failureOps3).failed_processing +
      (applyFailures (SingleLookupRequestState.new (PeerShouldHave.BlockAndBlobs 7))
        failureOps3).failed_downloading ∧
    c6Lookup.request_block 3 false List.head? =
      (c6Lookup, Except.error (LookupRequestError.TooManyAttempts false)) := by
  constructor
  · exact (failed_attempts_and_exhaustion.1 failureOps3
      (PeerShouldHave.BlockAndBlobs 7)).2.2 (by decide)
  · have h := failed_attempts_and_exhaustion.2.1 c6Lookup 3 false List.head?
      rfl (by decide)
    simpa using h

/-! ## C2 -/

theorem foldl_max_le {b : Nat} :
    ∀ (l : List Nat) (i : Nat), i ≤ b → (∀ x ∈ l, x ≤ b) → l.foldl max 0 ≤ b ∧
      ∀ j ≤ b, l.foldl max j ≤ b := by
  intro l
  induction l with
  | nil => exact fun i hi _ => ⟨Nat.zero_le b, fun j hj => hj⟩
  | cons x xs ih =>
    intro i hi hall
    have hx : x ≤ b := hall x (List.mem_cons_self x xs)
    have hxs : ∀ y ∈ xs, y ≤ b := fun y hy => hall y (List.mem_cons_of_mem x hy)
    constructor
    · exact (ih 0 (Nat.zero_le b) hxs).2 (max 0 x) (by omega)
    · intro j hj
      exact (ih 0 (Nat.zero_le b) hxs).2 (max j x) (by omega)

theorem rangeInv_mk {Body FullBlock : Type} (s c : Nat) (l : List (BlockParts Body))
    (hemp : l = [] → s = 0 ∧ c = 0)
    (hc : ∀ a rest, l = a :: rest →
      s = a.header.block_number ∧
      (∀ x ∈ l, s ≤ x.header.block_number ∧ x.header.block_number ≤ s + 31) ∧
      c = (l.map fun x => x.header.block_number - s).foldl max 0 + 1 ∧ c ≤ 32) :
    RangeInv ({ start := s, count := c, state := RequestState.UnSent l } :
      BodiesByRange Body FullBlock) l :=
  ⟨rfl, hemp, hc⟩

/-- One step of the packing argument: from an unsent batch satisfying the
invariant, a push is accepted exactly when the batch is empty or the item
is in the window with `count < 32`; an accepted push preserves the
invariant for the extended accepted list, and a rejected push returns the
very item and leaves the batch unchanged. -/
theorem range_push_step {Body FullBlock : Type}
    (r : BodiesByRange Body FullBlock) (accepted : List (BlockParts Body))
    (bp : BlockParts Body) (hinv : RangeInv r accepted) :
    ((accepted = [] ∨
        (r.count < 32 ∧ r.start ≤ bp.header.block_number ∧
          bp.header.block_number ≤ r.start + 31)) →
      (r.push_block_parts bp).2 = Except.ok () ∧
      RangeInv (r.push_block_parts bp).1 (accepted ++ [bp])) ∧
    (¬ (accepted = [] ∨
        (r.count < 32 ∧ r.start ≤ bp.header.block_number ∧
          bp.header.block_number ≤ r.start + 31)) →
      r.push_block_parts bp = (r, Except.error bp)) := by
  obtain ⟨hstate, hempty, hcons⟩ := hinv
  constructor
  · intro hacc
    match haccepted : accepted, hacc, hempty, hcons with
    | [], hacc, hempty, hcons =>
      obtain ⟨hs0, hc0⟩ := hempty rfl
      have hpush : r.push_block_parts bp =
          ({ start := bp.header.block_number, count := 1,
             state := RequestState.UnSent [bp] }, Except.ok ()) := by
        simp [BodiesByRange.push_block_parts, hstate, hc0]
      rw [hpush]
      rw [List.nil_append]
      refine ⟨rfl, rangeInv_mk _ _ _ (by simp) ?_⟩
      rintro a rest h
      injection h.symm with h1 h2
      refine ⟨h1 ▸ rfl, ?_, by simp, by decide⟩
      intro x hx
      have hxbp : x = bp := by simpa using hx
      subst hxbp
      exact ⟨Nat.le_refl _, Nat.le_add_right _ _⟩
    | a :: rest, hacc, hempty, hcons =>
      obtain ⟨hlt, hlo, hhi⟩ : r.count < 32 ∧ r.start ≤ bp.header.block_number ∧
          bp.header.block_number ≤ r.start + 31 := by
        rcases hacc with h | h
        · exact absurd h (by simp)
        · exact h
      obtain ⟨hsa, hwin, hcnt, hle⟩ := hcons a rest rfl
      have hc0 : r.count ≠ 0 := by omega
      have hc32 : r.count ≠ 32 := by omega
      have hwindow : ¬ (bp.header.block_number < r.start ∨
          r.start + 31 < bp.header.block_number) := by omega
      have hpush : r.push_block_parts bp =
          ({ start := r.start,
             count := if r.start + r.count ≤ bp.header.block_number then
                 bp.header.block_number - r.start + 1
               else r.count,
             state := RequestState.UnSent ((a :: rest) ++ [bp]) },
           Except.ok ()) := by
        simp [BodiesByRange.push_block_parts, hstate, hc0, hc32, hwindow]
      rw [hpush]
      refine ⟨rfl, rangeInv_mk _ _ _ (by simp) ?_⟩
      rintro a' rest' h
      injection h with h1 h2
      refine ⟨h1 ▸ hsa, ?_, ?_, ?_⟩
      · intro x hx
        rcases List.mem_cons.mp hx with hxa | hx'
        · rw [hxa]
          exact hwin a (List.mem_cons_self a rest)
        · rcases List.mem_append.mp hx' with hx2 | hx2
          · exact hwin x (List.mem_cons_of_mem a hx2)
          · simp only [List.mem_singleton] at hx2
            subst hx2
            exact ⟨hlo, hhi⟩
      · show (if r.start + r.count ≤ bp.header.block_number then
            bp.header.block_number - r.start + 1
          else r.count) =
          (List.map (fun x => x.header.block_number - r.start)
            ((a :: rest) ++ [bp])).foldl max 0 + 1
        rw [List.map_append, List.foldl_append]
        simp only [List.map_cons, List.map_nil, List.foldl_cons, List.foldl_nil]
        simp only [List.map_cons, List.foldl_cons] at hcnt
        by_cases hcase : r.start + r.count ≤ bp.header.block_number
        · rw [if_pos hcase]
          omega
        · rw [if_neg hcase]
          omega
      · show (if r.start + r.count ≤ bp.header.block_number then
            bp.header.block_number - r.start + 1
          else r.count) ≤ 32
        by_cases hcase : r.start + r.count ≤ bp.header.block_number
        · rw [if_pos hcase]
          omega
        · rw [if_neg hcase]
          exact hle
  · intro hrej
    push_neg at hrej
    obtain ⟨hne, hrej⟩ := hrej
    match haccepted : accepted, hne, hempty, hcons with
    | a :: rest, hne, hempty, hcons =>
      obtain ⟨hsa, hwin, hcnt, hle⟩ := hcons a rest rfl
      by_cases hc32 : r.count = 32
      · simp [BodiesByRange.push_block_parts, hstate, hc32]
      · have hcl : r.count < 32 := by omega
        have hout : bp.header.block_number < r.start ∨
            r.start + 31 < bp.header.block_number := by
          rcases Nat.lt_or_ge bp.header.block_number r.start with h | h
          · exact Or.inl h
          · right
            have := hrej hcl h
            omega
        have hc0 : r.count ≠ 0 := by omega
        simp [BodiesByRange.push_block_parts, hstate, hc32, hc0, hout]

/-- Folding the step lemma along a whole push sequence. -/
theorem range_push_sequence {Body FullBlock : Type} :
    ∀ (items : List (BlockParts Body)) (r : BodiesByRange Body FullBlock)
      (accepted : List (BlockParts Body)), RangeInv r accepted →
      RangeInv (push_sequence r items).1
        (accepted ++ acceptedOf (push_sequence r items).2) ∧
      (∀ e ∈ (push_sequence r items).2, ∀ b, e.2 = Except.error b → b = e.1) := by
  intro items
  induction items with
  | nil =>
    intro r accepted hinv
    exact ⟨by simpa [push_sequence, acceptedOf] using hinv, by simp [push_sequence]⟩
  | cons bp rest ih =>
    intro r accepted hinv
    have hseq : push_sequence r (bp :: rest) =
        ((push_sequence (r.push_block_parts bp).1 rest).1,
         (bp, (r.push_block_parts bp).2) ::
           (push_sequence (r.push_block_parts bp).1 rest).2) := rfl
    by_cases hacc : accepted = [] ∨
        (r.count < 32 ∧ r.start ≤ bp.header.block_number ∧
          bp.header.block_number ≤ r.start + 31)
    · obtain ⟨hok, hinv'⟩ := (range_push_step r accepted bp hinv).1 hacc
      obtain ⟨ih1, ih2⟩ := ih (r.push_block_parts bp).1 (accepted ++ [bp]) hinv'
      rw [hseq]
      constructor
      · simpa [acceptedOf, hok, List.append_assoc] using ih1
      · intro e he b heb
        rcases List.mem_cons.mp he with he' | he'
        · rw [he'] at heb
          simp only [hok] at heb
          cases heb
        · exact ih2 e he' b heb
    · have hrej := (range_push_step r accepted bp hinv).2 hacc
      obtain ⟨ih1, ih2⟩ := ih r accepted hinv
      rw [hseq, hrej]
      constructor
      · simpa [acceptedOf] using ih1
      · intro e he b heb
        rcases List.mem_cons.mp he with he' | he'
        · rw [he'] at heb ⊢
          injection heb with hbb
          exact hbb.symm
        · exact ih2 e he' b heb

/-- C2: a `BodiesByRange` batch in the `Unsent` state accepts its first
item unconditionally, fixing `start` to that item's block number with
`count = 1` (that is how the invariant below reads for a singleton accepted
list); a later item is accepted exactly when its block number lies in
`[start, start + 31]` and `count` is below 32, after which `count` equals
the maximum accepted offset plus one; a push outside the window, with
`count = 32`, or in the `Sent` state is rejected by returning the very
item with the batch unchanged; and every push sequence from `new(None)`
maintains the packing invariant while returning, not dropping, each
rejected item. -/
theorem by_range_push_packing {Body FullBlock : Type} :
    (∀ (r : BodiesByRange Body FullBlock) (accepted : List (BlockParts Body))
        (bp : BlockParts Body), RangeInv r accepted →
      ((accepted = [] ∨ (r.count < 32 ∧ r.start ≤ bp.header.block_number ∧
            bp.header.block_number ≤ r.start + 31)) →
        (r.push_block_parts bp).2 = Except.ok () ∧
        RangeInv (r.push_block_parts bp).1 (accepted ++ [bp])) ∧
      (¬ (accepted = [] ∨ (r.count < 32 ∧ r.start ≤ bp.header.block_number ∧
            bp.header.block_number ≤ r.start + 31)) →
        r.push_block_parts bp = (r, Except.error bp))) ∧
    (∀ (r : BodiesByRange Body FullBlock) (m : List (Nat × BlockResult FullBlock))
        (bp : BlockParts Body),
      r.state = RequestState.Sent m → r.push_block_parts bp = (r, Except.error bp)) ∧
    (∀ items : List (BlockParts Body),
      RangeInv (push_sequence (BodiesByRange.new none :
          BodiesByRange Body FullBlock) items).1
        (acceptedOf (push_sequence (BodiesByRange.new none :
          BodiesByRange Body FullBlock) items).2) ∧
      (∀ e ∈ (push_sequence (BodiesByRange.new none :
          BodiesByRange Body FullBlock) items).2,
        ∀ b, e.2 = Except.error b → b = e.1)) := by
  refine ⟨fun r accepted bp hinv => range_push_step r accepted bp hinv,
    fun r m bp hst => ?_, fun items => ?_⟩
  · by_cases hc : r.count = 32 <;>
      simp [BodiesByRange.push_block_parts, hc, hst]
  · have hinit : RangeInv (BodiesByRange.new none :
        BodiesByRange Body FullBlock) [] :=
      ⟨rfl, fun _ => ⟨rfl, rfl⟩, fun a rest h => List.noConfusion h⟩
    simpa using range_push_sequence items (BodiesByRange.new none) [] hinit

/-- Witness: the first item pushed into a fresh by-range batch is
accepted. -/
theorem by_range_push_packing_witness :
    ((BodiesByRange.new none : BodiesByRange Nat Nat).push_block_parts
      blockParts100).2 = Except.ok () :=
  (((@by_range_push_packing Nat Nat).1
      (BodiesByRange.new none) [] blockParts100
      ⟨rfl, fun _ => ⟨rfl, rfl⟩, fun a rest h => List.noConfusion h⟩).1
    (Or.inl rfl)).1

/-! ## C3 -/

/-- C3: `execute` is idempotent on both batch variants: a batch already in
the `Sent` state is left unchanged with no engine call, and after any
`execute` a second `execute` changes nothing and issues no engine call, so
two sequential calls perform at most one engine call, the Unsent-to-Sent
transition happens at most once, and the stored root-to-result map never
changes afterwards. -/
theorem execute_idempotent {Body Payload FullBlock : Type}
    (ops : ReconOps Body Payload FullBlock)
    (engine_by_hash : List Nat → Except Nat (List (Option Body)))
    (engine_by_range : Nat → Nat → Except Nat (List (Option Body)))
    (h : BodiesByHash Body FullBlock) (r : BodiesByRange Body FullBlock) :
    (∀ m, h.state = RequestState.Sent m →
      h.execute ops engine_by_hash = (h, 0)) ∧
    ((h.execute ops engine_by_hash).1.execute ops engine_by_hash =
      ((h.execute ops engine_by_hash).1, 0)) ∧
    ((h.execute ops engine_by_hash).2 +
      ((h.execute ops engine_by_hash).1.execute ops engine_by_hash).2 ≤ 1) ∧
    (∀ m, r.state = RequestState.Sent m →
      r.execute ops engine_by_range = (r, 0)) ∧
    ((r.execute ops engine_by_range).1.execute ops engine_by_range =
      ((r.execute ops engine_by_range).1, 0)) ∧
    ((r.execute ops engine_by_range).2 +
      ((r.execute ops engine_by_range).1.execute ops engine_by_range).2 ≤ 1) := by
  obtain ⟨hashes, hstate⟩ := h
  obtain ⟨rstart, rcount, rstate⟩ := r
  refine ⟨?_, ?_, ?_, ?_, ?_, ?_⟩
  · intro m hm
    cases hstate with
    | UnSent parts => exact absurd hm (by simp)
    | Sent m' => simp [BodiesByHash.execute]
  · cases hstate with
    | UnSent parts => cases hashes <;> simp [BodiesByHash.execute]
    | Sent m' => simp [BodiesByHash.execute]
  · cases hstate with
    | UnSent parts => cases hashes <;> simp [BodiesByHash.execute]
    | Sent m' => simp [BodiesByHash.execute]
  · intro m hm
    cases rstate with
    | UnSent parts => exact absurd hm (by simp)
    | Sent m' => simp [BodiesByRange.execute]
  · cases rstate with
    | UnSent parts => simp [BodiesByRange.execute]
    | Sent m' => simp [BodiesByRange.execute]
  · cases rstate with
    | UnSent parts => simp [BodiesByRange.execute]
    | Sent m' => simp [BodiesByRange.execute]

/-- Witness: `execute` on sent batches is a no-op with zero engine calls. -/
theorem execute_idempotent_witness :
    sentByHash.execute reconOpsNat (fun _ => Except.error 0) = (sentByHash, 0) ∧
    sentByRange.execute reconOpsNat (fun _ _ => Except.error 0) = (sentByRange, 0) :=
  ⟨(execute_idempotent reconOpsNat (fun _ => Except.error 0)
      (fun _ _ => Except.error 0) sentByHash sentByRange).1 [] rfl,
   (execute_idempotent reconOpsNat (fun _ => Except.error 0)
      (fun _ _ => Except.error 0) sentByHash sentByRange).2.2.2.1 [] rfl⟩

/-! ## C4 -/

theorem load_payloads_fst {Body Payload FullBlock : Type}
    (ctx : StreamerCtx Body Payload FullBlock) (block_roots : List Nat) :
    (load_payloads ctx block_roots).map Prod.fst = block_roots := by
  induction block_roots with
  | nil => rfl
  | cons r rest ih => simpa [load_payloads] using ih

theorem get_requests_step_ordered {Body Payload FullBlock : Type}
    (ctx : StreamerCtx Body Payload FullBlock)
    (st : ReqBuild Body FullBlock) (payload : Nat × LoadResult FullBlock) :
    (get_requests_step ctx st payload).ordered_block_roots =
      st.ordered_block_roots ++ [payload.1] := by
  rcases payload with ⟨root, lr⟩
  cases lr with
  | error e => rfl
  | ok o =>
    cases o with
    | none => rfl
    | some loaded =>
      cases loaded with
      | Full b => rfl
      | Blinded b =>
        cases hh : b.payload_header with
        | none => simp [get_requests_step, hh]
        | some hd =>
          by_cases hslot : (BlockParts.new b.block hd :
              BlockParts Body).slot ≤ ctx.finalized_slot
          · simp [get_requests_step, hh, hslot]
          · simp [get_requests_step, hh, hslot]

theorem get_requests_fold_ordered {Body Payload FullBlock : Type}
    (ctx : StreamerCtx Body Payload FullBlock) :
    ∀ (payloads : List (Nat × LoadResult FullBlock)) (st : ReqBuild Body FullBlock),
      (payloads.foldl (get_requests_step ctx) st).ordered_block_roots =
        st.ordered_block_roots ++ payloads.map Prod.fst := by
  intro payloads
  induction payloads with
  | nil => intro st; simp
  | cons p rest ih =>
    intro st
    rw [List.foldl_cons, ih, get_requests_step_ordered]
    simp

theorem get_requests_fst {Body Payload FullBlock : Type}
    (ctx : StreamerCtx Body Payload FullBlock)
    (payloads : List (Nat × LoadResult FullBlock)) :
    (get_requests ctx payloads).1 = payloads.map Prod.fst := by
  show (payloads.foldl (get_requests_step ctx)
    { ordered_block_roots := []
      by_range_blocks := []
      by_hash_rev := []
      no_request := []
      assignment := [] }).ordered_block_roots = payloads.map Prod.fst
  rw [get_requests_fold_ordered]
  simp

theorem stream_emit_fold {Body Payload FullBlock : Type}
    (ctx : StreamerCtx Body Payload FullBlock) :
    ∀ (roots : List Nat) (req : Requests Body FullBlock)
      (acc : List (Nat × BlockResult FullBlock)),
      ((roots.foldl (stream_emit ctx) (req, acc)).2).map Prod.fst =
        acc.map Prod.fst ++ roots := by
  intro roots
  induction roots with
  | nil => intro req acc; simp
  | cons r rest ih =>
    intro req acc
    rw [List.foldl_cons]
    rw [show stream_emit ctx (req, acc) r =
      ((request_map_get_result ctx req r).1,
        acc ++ [(r, (request_map_get_result ctx req r).2)]) from rfl]
    rw [ih]
    simp

/-- C4: `stream_blocks` emits exactly one `(root, result)` pair per
requested root, and the emission order on the channel equals the original
request order of the roots — whatever batches (by-hash, by-range, or
no-request) the roots were assigned to and whatever those batches
resolve to. -/
theorem stream_blocks_request_order {Body Payload FullBlock : Type}
    (ctx : StreamerCtx Body Payload FullBlock) (block_roots : List Nat) :
    (stream_blocks ctx block_roots).map Prod.fst = block_roots := by
  show (((get_requests ctx (load_payloads ctx block_roots)).1.foldl
      (stream_emit ctx)
      ((get_requests ctx (load_payloads ctx block_roots)).2, [])).2).map Prod.fst =
    block_roots
  rw [stream_emit_fold]
  rw [get_requests_fst, load_payloads_fst]
  simp

/-! ## C7 -/

namespace alist

variable {α β : Type} [DecidableEq α]

theorem find_mem {m : List (α × β)} {k : α} {v : β} (h : find m k = some v) :
    (k, v) ∈ m := by
  unfold find at h
  obtain ⟨p, hp, hv⟩ : ∃ p, m.find? (fun p => p.1 = k) = some p ∧ p.2 = v := by
    cases hf : m.find? (fun p => p.1 = k) with
    | none => rw [hf] at h; cases h
    | some p => rw [hf] at h; exact ⟨p, rfl, by simpa using h⟩
  have hpk : p.1 = k := by simpa using List.find?_some hp
  have hpm : p ∈ m := List.mem_of_find?_eq_some hp
  have hpe : p = (k, v) := by
    obtain ⟨p1, p2⟩ := p
    simp only at hpk hv
    rw [hpk, hv]
  rw [← hpe]
  exact hpm

theorem isSome_find_insert_self (m : List (α × β)) (k : α) (v : β) :
    (find (insert m k v) k).isSome := by
  rw [find_insert_self]; rfl

theorem isSome_find_insert (m : List (α × β)) (k' : α) (v : β) (k : α)
    (h : (find m k).isSome) : (find (insert m k' v) k).isSome := by
  by_cases hk : k = k'
  · subst hk
    exact isSome_find_insert_self m k v
  · rw [find_insert_ne m k' k v hk]
    exact h

end alist

theorem foldl_insert_const_values {α β γ : Type} [DecidableEq α]
    (key : γ → α) (v : β) :
    ∀ (items : List γ) (m : List (α × β)), (∀ p ∈ m, p.2 = v) →
      ∀ p ∈ items.foldl (fun acc x => alist.insert acc (key x) v) m, p.2 = v := by
  intro items
  induction items with
  | nil => intro m hm; simpa using hm
  | cons x xs ih =>
    intro m hm
    refine ih (alist.insert m (key x) v) ?_
    intro p hp
    rcases List.mem_cons.mp hp with hp' | hp'
    · rw [hp']
    · exact hm p (List.mem_of_mem_filter hp')

theorem isSome_find_foldl_insert {α β γ : Type} [DecidableEq α]
    (key : γ → α) (v : β) :
    ∀ (items : List γ) (m : List (α × β)) (k : α), (alist.find m k).isSome →
      (alist.find (items.foldl (fun acc x => alist.insert acc (key x) v) m) k).isSome := by
  intro items
  induction items with
  | nil => intro m k h; simpa using h
  | cons x xs ih =>
    intro m k h
    exact ih _ k (alist.isSome_find_insert m (key x) v k h)

theorem isSome_find_foldl_insert_self {α β γ : Type} [DecidableEq α]
    (key : γ → α) (v : β) :
    ∀ (items : List γ) (m : List (α × β)) (x : γ), x ∈ items →
      (alist.find (items.foldl (fun acc y => alist.insert acc (key y) v) m)
        (key x)).isSome := by
  intro items
  induction items with
  | nil => intro m x h; cases h
  | cons y ys ih =>
    intro m x hx
    rcases List.mem_cons.mp hx with hx' | hx'
    · rw [hx']
      exact isSome_find_foldl_insert key v ys _ (key y)
        (alist.isSome_find_insert_self m (key y) v)
    · exact ih _ x hx'

theorem find_foldl_insert_const {α β γ : Type} [DecidableEq α]
    (key : γ → α) (v : β) (items : List γ) (x : γ) (hx : x ∈ items) :
    alist.find (items.foldl (fun acc y => alist.insert acc (key y) v) [])
      (key x) = some v := by
  have hall := foldl_insert_const_values key v items [] (by simp)
  have hsome := isSome_find_foldl_insert_self key v items [] x hx
  obtain ⟨w, hw⟩ := Option.isSome_iff_exists.mp hsome
  have hmem := alist.find_mem hw
  have hwv : w = v := hall _ hmem
  rw [hw, hwv]

/-- C7: when a batch's engine call fails, every item pushed into that
batch is mapped to the same batch-wide failure (`BlocksByHashFailure` or
`BlocksByRangeFailure` wrapping the engine error): every pushed root finds
exactly that error in the stored map, and every entry of the stored map is
that error — no per-item result, missing-body result, or reconstructed
block occurs in the failed batch. -/
theorem batch_failure_broadcast {Body Payload FullBlock : Type}
    (ops : ReconOps Body Payload FullBlock)
    (engine_by_hash : List Nat → Except Nat (List (Option Body)))
    (engine_by_range : Nat → Nat → Except Nat (List (Option Body)))
    (h : BodiesByHash Body FullBlock) (r : BodiesByRange Body FullBlock)
    (parts rparts : List (BlockParts Body)) (hs : List Nat) (e e' : Nat) :
    (h.state = RequestState.UnSent parts → h.hashes = some hs →
      engine_by_hash hs = Except.error e →
      ∃ map, (h.execute ops engine_by_hash).1.state = RequestState.Sent map ∧
        (∀ p ∈ map, p.2 =
          Except.error (BeaconChainError.BlocksByHashFailure e)) ∧
        (∀ bp ∈ parts, alist.find map bp.root =
          some (Except.error (BeaconChainError.BlocksByHashFailure e)))) ∧
    (r.state = RequestState.UnSent rparts →
      engine_by_range r.start r.count = Except.error e' →
      ∃ map, (r.execute ops engine_by_range).1.state = RequestState.Sent map ∧
        (∀ p ∈ map, p.2 =
          Except.error (BeaconChainError.BlocksByRangeFailure e')) ∧
        (∀ bp ∈ rparts, alist.find map bp.root =
          some (Except.error (BeaconChainError.BlocksByRangeFailure e')))) := by
  constructor
  · intro hstate hh heng
    have hexec : (h.execute ops engine_by_hash).1.state = RequestState.Sent
        (parts.foldl (fun m bp => alist.insert m bp.root
          (Except.error (BeaconChainError.BlocksByHashFailure e))) []) := by
      simp [BodiesByHash.execute, hstate, hh, heng]
    refine ⟨_, hexec, ?_, ?_⟩
    · exact foldl_insert_const_values BlockParts.root _ parts [] (by simp)
    · intro bp hbp
      exact find_foldl_insert_const BlockParts.root _ parts bp hbp
  · intro hstate heng
    have hexec : (r.execute ops engine_by_range).1.state = RequestState.Sent
        (rparts.foldl (fun m bp => alist.insert m bp.root
          (Except.error (BeaconChainError.BlocksByRangeFailure e'))) []) := by
      simp [BodiesByRange.execute, hstate, heng]
    refine ⟨_, hexec, ?_, ?_⟩
    · exact foldl_insert_const_values BlockParts.root _ rparts [] (by simp)
    · intro bp hbp
      exact find_foldl_insert_const BlockParts.root _ rparts bp hbp

/-- Witness: a failing engine call broadcasts the same wrapped error to
both items of the concrete batch. -/
theorem batch_failure_broadcast_witness :
    ∃ map, (failingByHash.execute reconOpsNat (fun _ => Except.error 9)).1.state =
        RequestState.Sent map ∧
      (∀ p ∈ map, p.2 =
        Except.error (BeaconChainError.BlocksByHashFailure 9)) ∧
      (∀ bp ∈ [failParts1, failParts2], alist.find map bp.root =
        some (Except.error (BeaconChainError.BlocksByHashFailure 9))) :=
  (batch_failure_broadcast reconOpsNat (fun _ => Except.error 9)
    (fun _ _ => Except.error 9) failingByHash failingByRange
    [failParts1, failParts2] [failParts1, failParts2] [41, 42] 9 9).1 rfl rfl rfl

/-! ## C10 -/

/-- C10: `add_potential_peer` inserts the peer into `potential_peers` only
when it is already a member of `available_peers`; otherwise — in
particular when the peer is in neither set — the call leaves the state
completely unchanged. -/
theorem add_potential_peer_requires_available
    (s : SingleLookupRequestState) (p : Nat) :
    (p ∈ s.available_peers →
      s.add_potential_peer p =
        { s with potential_peers := hset.insert s.potential_peers p }) ∧
    (p ∉ s.available_peers → s.add_potential_peer p = s) ∧
    (p ∉ s.available_peers ∧ p ∉ s.potential_peers →
      s.add_potential_peer p = s) := by
  refine ⟨fun h => by simp [SingleLookupRequestState.add_potential_peer, h],
    fun h => by simp [SingleLookupRequestState.add_potential_peer, h],
    fun h => by simp [SingleLookupRequestState.add_potential_peer, h.1]⟩

/-- Witness: a peer in neither set is silently dropped, leaving the state
unchanged. -/
theorem add_potential_peer_requires_available_witness :
    (SingleLookupRequestState.new (PeerShouldHave.Neither 5)).add_potential_peer 9 =
      SingleLookupRequestState.new (PeerShouldHave.Neither 5) :=
  (add_potential_peer_requires_available
    (SingleLookupRequestState.new (PeerShouldHave.Neither 5)) 9).2.1 (by decide)

end Lighthouse
